import Mathlib

/-!
Verification of the omni.bind interface-binding generator
(`tools/omni.bind/omni/bind/{diagnostics,model,extract,cli,generate}.py`)
against its natural-language specification.

The development is a shallow embedding: each Python function relevant to a
claim is translated into an executable Lean definition over an explicit model
of its inputs (diagnostic messages, the dynamic attribute record, the clang
type/cursor oracle, the file system).  Machine-level concerns (mtimes,
text colouring, stream printing) that cannot influence any claim are noted
where they are dropped.
-/

namespace OmniBind

/-! ## Diagnostics (`diagnostics.py`)

`DiagnosticLevel` is an `IntEnum` ordered `IGNORED < VERBOSE < NOTE < WARNING
< ERROR < FATAL`; comparisons in the source are integer comparisons, modelled
through `toNat`. -/

inductive DiagnosticLevel where
  | ignored
  | verbose
  | note
  | warning
  | error
  | fatal
deriving DecidableEq, Repr

namespace DiagnosticLevel

/-- Numeric value of the level, exactly the `IntEnum` values 0..5. -/
def toNat : DiagnosticLevel → Nat
  | .ignored => 0
  | .verbose => 1
  | .note => 2
  | .warning => 3
  | .error => 4
  | .fatal => 5

end DiagnosticLevel

/-- Python `max` on two `DiagnosticLevel`s (returns the first on a tie,
which is observationally irrelevant because equal levels are equal). -/
def lmax (a b : DiagnosticLevel) : DiagnosticLevel :=
  if a.toNat < b.toNat then b else a

/-- Mirror of `SourceLocation` (a `NamedTuple` of file, line, column). -/
structure SourceLocation where
  file : String
  line : Nat
  column : Nat
deriving DecidableEq, Repr

/-- Mirror of `DiagnosticMessage`: level, optional source location, text and
an ordered list of nested sub-messages. -/
inductive DiagnosticMessage where
  | mk (level : DiagnosticLevel) (source : Option SourceLocation) (message : String)
       (nested : List DiagnosticMessage)

namespace DiagnosticMessage

def level : DiagnosticMessage → DiagnosticLevel
  | .mk l _ _ _ => l

def source : DiagnosticMessage → Option SourceLocation
  | .mk _ s _ _ => s

def message : DiagnosticMessage → String
  | .mk _ _ m _ => m

def nested : DiagnosticMessage → List DiagnosticMessage
  | .mk _ _ _ n => n

@[simp]
theorem level_mk (l : DiagnosticLevel) (s : Option SourceLocation) (m : String)
    (n : List DiagnosticMessage) : (DiagnosticMessage.mk l s m n).level = l := rfl

@[simp]
theorem message_mk (l : DiagnosticLevel) (s : Option SourceLocation) (m : String)
    (n : List DiagnosticMessage) : (DiagnosticMessage.mk l s m n).message = m := rfl

@[simp]
theorem nested_mk (l : DiagnosticLevel) (s : Option SourceLocation) (m : String)
    (n : List DiagnosticMessage) : (DiagnosticMessage.mk l s m n).nested = n := rfl

end DiagnosticMessage

/-- Mutable state of a `DiagnosticReporter`: the collected messages and the
running worst level (`_diagnostics`, `_worst_diagnostic_level`).  The
effective log and error levels (resolved through the parent chain by
`_value_for`) are passed explicitly to the operations that read them. -/
structure ReporterState where
  diagnostics : List DiagnosticMessage
  worst : DiagnosticLevel

/-- A fresh reporter: no diagnostics, worst level `IGNORED`. -/
def initReporter : ReporterState :=
  { diagnostics := [], worst := .ignored }

/-- Mirror of `DiagnosticReporter.emit_message`: messages strictly below the
effective log level are discarded (returning `none` and leaving the state
untouched); otherwise the message is appended, the worst level is raised if
the message is worse, and the message itself is returned. -/
def emitMessage (logLevel : DiagnosticLevel) (st : ReporterState) (msg : DiagnosticMessage) :
    ReporterState × Option DiagnosticMessage :=
  if msg.level.toNat < logLevel.toNat then (st, none)
  else
    ({ diagnostics := st.diagnostics ++ [msg],
       worst := if st.worst.toNat < msg.level.toNat then msg.level else st.worst },
     some msg)

/-- Emit a list of messages in order (repeated `emit_message`). -/
def emitAll (logLevel : DiagnosticLevel) (st : ReporterState) (msgs : List DiagnosticMessage) :
    ReporterState :=
  msgs.foldl (fun s m => (emitMessage logLevel s m).1) st

/-- Mirror of `DiagnosticReporter.valid`: the reporter is valid while the
worst collected level is strictly below the effective error level. -/
def reporterValid (errorLevel : DiagnosticLevel) (st : ReporterState) : Bool :=
  st.worst.toNat < errorLevel.toNat

/-- Mirror of the message built by `DiagnosticReportBlock.__exit__` on a
normal close: the initial message with its level replaced by
`max(worst_diagnostic_level, root_level)` and its `nested` list replaced by
the block's accumulated diagnostics.  (`__exit__` then emits this message to
the parent reporter.) -/
def blockExitMessage (initial : DiagnosticMessage) (blk : ReporterState) : DiagnosticMessage :=
  .mk (lmax blk.worst initial.level) initial.source initial.message blk.diagnostics

/-- Worst level among a list of messages, `IGNORED` when empty; this is the
specification-side description of the reporter's running worst level. -/
def worstOf (msgs : List DiagnosticMessage) : DiagnosticLevel :=
  msgs.foldl (fun w m => if w.toNat < m.level.toNat then m.level else w) .ignored

theorem emitMessage_worst_inv (logLevel : DiagnosticLevel) (st : ReporterState)
    (m : DiagnosticMessage) (h : st.worst = worstOf st.diagnostics) :
    (emitMessage logLevel st m).1.worst = worstOf (emitMessage logLevel st m).1.diagnostics := by
  unfold emitMessage
  by_cases hc : m.level.toNat < logLevel.toNat
  · simp [hc, h]
  · simp only [hc, if_false]
    have h2 : worstOf (st.diagnostics ++ [m])
        = if st.worst.toNat < m.level.toNat then m.level else st.worst := by
      rw [h]; simp [worstOf, List.foldl_append]
    simp [h2]

theorem emitAll_worst_inv (logLevel : DiagnosticLevel) (msgs : List DiagnosticMessage) :
    ∀ st : ReporterState, st.worst = worstOf st.diagnostics →
      (emitAll logLevel st msgs).worst = worstOf (emitAll logLevel st msgs).diagnostics := by
  induction msgs with
  | nil => intro st h; simpa [emitAll] using h
  | cons m rest ih =>
      intro st h
      have step := emitMessage_worst_inv logLevel st m h
      simpa [emitAll] using ih _ step

theorem initReporter_worst_inv : initReporter.worst = worstOf initReporter.diagnostics := by
  simp [initReporter, worstOf]

/-- Claim C3: when a nested diagnostic scope (`DiagnosticReportBlock`) built
by accepting any sequence of messages closes, the message emitted to the
parent has level `max(declared level, worst accumulated sub-message level)`
(so never below the declared level), its nested list is exactly the
accumulated sub-messages (so each retains its original level); in particular
a scope declared at `warning` holding an `error` sub-message is emitted at
`error` while the sub-message keeps level `error`. -/
theorem block_close_escalates (logLevel : DiagnosticLevel) (inputs : List DiagnosticMessage)
    (initial : DiagnosticMessage) :
    ((blockExitMessage initial (emitAll logLevel initReporter inputs)).level
        = lmax (worstOf (emitAll logLevel initReporter inputs).diagnostics) initial.level
      ∧ (blockExitMessage initial (emitAll logLevel initReporter inputs)).nested
          = (emitAll logLevel initReporter inputs).diagnostics
      ∧ initial.level.toNat
          ≤ (blockExitMessage initial (emitAll logLevel initReporter inputs)).level.toNat)
    ∧ (blockExitMessage (.mk .warning none "scope" [])
          (emitAll .note initReporter [.mk .error none "sub" []])).level = .error
    ∧ (blockExitMessage (.mk .warning none "scope" [])
          (emitAll .note initReporter [.mk .error none "sub" []])).nested
        = [.mk .error none "sub" []] := by
  obtain ⟨li, si, mi, ni⟩ := initial
  refine ⟨⟨?_, rfl, ?_⟩, rfl, rfl⟩
  · have h := emitAll_worst_inv logLevel inputs initReporter initReporter_worst_inv
    simp [blockExitMessage, h, DiagnosticMessage.level]
  · simp only [blockExitMessage, DiagnosticMessage.level, lmax]
    by_cases hc : (emitAll logLevel initReporter inputs).worst.toNat < li.toNat
    · simp [hc]
    · simp only [hc, if_false]
      omega

/-- Claim C8: with the effective log level configured at `a`, the reporter
accepts (appends and returns) a message at any level `b > a`, accepts a
message at level `a` itself, and rejects (returns `none`, appending nothing)
every message at a level strictly below `a`. -/
theorem log_level_acceptance (a b : DiagnosticLevel) (hab : a.toNat < b.toNat)
    (st : ReporterState) (sB sA : Option SourceLocation) (tB tA : String)
    (nB nA : List DiagnosticMessage) :
    (emitMessage a st (.mk b sB tB nB)
        = ({ diagnostics := st.diagnostics ++ [.mk b sB tB nB],
             worst := if st.worst.toNat < b.toNat then b else st.worst },
           some (.mk b sB tB nB))
      ∧ emitMessage a st (.mk a sA tA nA)
        = ({ diagnostics := st.diagnostics ++ [.mk a sA tA nA],
             worst := if st.worst.toNat < a.toNat then a else st.worst },
           some (.mk a sA tA nA)))
    ∧ ∀ (c : DiagnosticLevel), c.toNat < a.toNat →
        ∀ (sC : Option SourceLocation) (tC : String) (nC : List DiagnosticMessage),
          emitMessage a st (.mk c sC tC nC) = (st, none) := by
  refine ⟨⟨?_, ?_⟩, ?_⟩
  · simp [emitMessage, DiagnosticMessage.level]
    omega
  · simp [emitMessage, DiagnosticMessage.level]
  · intro c hc sC tC nC
    simp [emitMessage, DiagnosticMessage.level, hc]

theorem log_level_acceptance_witness :
    (emitMessage .verbose initReporter (.mk .error none "boom" [])
        = ({ diagnostics := [.mk .error none "boom" []], worst := .error },
           some (.mk .error none "boom" []))
      ∧ emitMessage .verbose initReporter (.mk .verbose none "chatty" [])
        = ({ diagnostics := [.mk .verbose none "chatty" []], worst := .verbose },
           some (.mk .verbose none "chatty" [])))
    ∧ ∀ (c : DiagnosticLevel), c.toNat < DiagnosticLevel.verbose.toNat →
        ∀ (sC : Option SourceLocation) (tC : String) (nC : List DiagnosticMessage),
        emitMessage .verbose initReporter (.mk c sC tC nC) = (initReporter, none) := by
  have h := log_level_acceptance .verbose .error (by decide) initReporter none none
    "boom" "chatty" [] []
  refine ⟨⟨?_, ?_⟩, h.2⟩
  · simpa [initReporter, DiagnosticLevel.toNat] using h.1.1
  · simpa [initReporter, DiagnosticLevel.toNat] using h.1.2

/-- Claim C10: a message rejected by the log-level filter leaves the
reporter's state entirely unchanged — it is not appended and the worst level
does not move — so the reporter's validity against any error threshold is
unaffected, even when the rejected message is at `error` level or worse. -/
theorem rejected_message_leaves_state (logLevel errorLevel : DiagnosticLevel)
    (st : ReporterState) (m : DiagnosticMessage) (h : m.level.toNat < logLevel.toNat) :
    emitMessage logLevel st m = (st, none)
      ∧ reporterValid errorLevel (emitMessage logLevel st m).1 = reporterValid errorLevel st := by
  have he : emitMessage logLevel st m = (st, none) := by
    simp [emitMessage, h]
  exact ⟨he, by rw [he]⟩

theorem rejected_message_leaves_state_witness :
    emitMessage .fatal initReporter (.mk .error none "suppressed" []) = (initReporter, none)
      ∧ reporterValid .error
          (emitMessage .fatal initReporter (.mk .error none "suppressed" [])).1
        = reporterValid .error initReporter := by
  exact rejected_message_leaves_state .fatal .error initReporter
    (.mk .error none "suppressed" []) (by decide)

/-! ## Attribute annotation records (`model.py`, class `Attributes`)

The Python `Attributes` object is dynamically typed: `__init__` installs 27
option attributes (via `setattr`) plus `self.pointee = None`, and `_parse`
dispatches on `hasattr(attributes, key)` followed by `setattr`.  We model the
instance as its attribute dictionary: a list of named dynamic values for the
option attributes, plus the `pointee` slot (held separately because
`_get_key_and_attributes` navigates through it; `setattr(a, "pointee", v)`
writes this slot).  `hasattr` is also true for the class's methods
(`_parse`, `_get_key_and_attributes`, `is_valid`), which instance `setattr`
then shadows; double-underscore attributes inherited from `object` are not
modelled (theorems that quantify over keys exclude them explicitly). -/

mutual
inductive AttrValue where
  | vNone
  | vBool (b : Bool)
  | vStr (s : String)
  | vAttrs (a : Attributes)
inductive Attributes where
  | mk (fields : List (String × AttrValue)) (pointee : AttrValue)
end

def Attributes.fields : Attributes → List (String × AttrValue)
  | .mk f _ => f

def Attributes.pointee : Attributes → AttrValue
  | .mk _ p => p

/-- Python truthiness of a dynamic attribute value (`None`/`False`/`\x22\x22`
are falsy; a populated string, `True`, and any `Attributes` object are
truthy). -/
def AttrValue.truthy : AttrValue → Bool
  | .vNone => false
  | .vBool b => b
  | .vStr s => s ≠ ""
  | .vAttrs _ => true

/-- The 27 option attributes installed by `Attributes.__init__`, in source
order, with the default values from the `attrs` dictionary (`False` for the
boolean options, `None` for the string/object-valued ones). -/
def defaultFields : List (String × AttrValue) :=
  [("not_null", .vBool false), ("input", .vBool false), ("output", .vBool false),
   ("no_py", .vBool false), ("no_api", .vBool false), ("flag", .vBool false),
   ("constant", .vBool false), ("prefix", .vNone), ("c_str", .vBool false),
   ("count", .vNone), ("consumer", .vNone), ("count_of", .vNone),
   ("not_prop", .vBool false), ("allow_unsafe_abi_in_test", .vBool false),
   ("init_arg", .vBool false), ("vec", .vBool false), ("opaque", .vBool false),
   ("py_get", .vBool false), ("py_set", .vBool false), ("py_not_prop", .vBool false),
   ("py_name", .vNone), ("bind_class", .vBool false), ("ref", .vBool false),
   ("no_acquire", .vBool false), ("throw_result", .vBool false),
   ("returned", .vBool false), ("throw_if_null", .vBool false)]

/-- A fresh record, as built by `Attributes(None)`. -/
def defaultAttributes : Attributes := .mk defaultFields .vNone

/-- The non-double-underscore methods defined on the `Attributes` class;
`hasattr(instance, m)` is true for these as well.  `hasattr` additionally
accepts `__init__` (also defined on the class) and every attribute inherited
from Python `object` (`__eq__`, `__repr__`, ..., an interpreter-version
dependent set); all of those names begin with `__`, so they are kept out of
this list and the statements about the dispatch are restricted to keys that
are not double-underscore-prefixed (`dunderKey`). -/
def classAttrNames : List String := ["_parse", "_get_key_and_attributes", "is_valid"]

/-- A double-underscore-prefixed key.  Every attribute name that
`hasattr(attributes, key)` accepts beyond the option fields, the `pointee`
slot and `classAttrNames` — namely `__init__` and the attributes inherited
from Python `object` — begins with `__`, so on keys with
`dunderKey key = false` the three lists above describe `hasattr` exactly. -/
def dunderKey (key : String) : Bool := key.toList.take 2 = ['_', '_']

/-- First-match lookup in the attribute dictionary (Python attribute read). -/
def lookupField : List (String × AttrValue) → String → Option AttrValue
  | [], _ => none
  | (k, v) :: rest, key => if k = key then some v else lookupField rest key

/-- Python `setattr`: replace the existing binding in place, or append a new
one. -/
def updateField : List (String × AttrValue) → String → AttrValue → List (String × AttrValue)
  | [], key, v => [(key, v)]
  | (k, w) :: rest, key, v =>
      if k = key then (key, v) :: rest else (k, w) :: updateField rest key v

/-- Combined mirror of `Attributes._get_key_and_attributes` (the `*`-counted
descent through `pointee`, creating `Attributes(None)` records where the
current `pointee` is falsy) and the per-key dispatch in `Attributes._parse`
(`hasattr` then `setattr`; the `in`/`out`/`return` renamings; otherwise
`ValueError`).  The source navigates first and dispatches afterwards; fusing
the two is observationally equal because a raised `ValueError` discards the
whole record under construction.  Descending into a truthy non-record
`pointee` value is a Python `AttributeError`/`TypeError`; both failure kinds
are collapsed into `Except.error`.  On a double-underscore key the source's
`hasattr` test would also succeed (`__init__`, attributes inherited from
`object`) where this embedding raises; such keys are outside the model, and
every statement about the dispatch excludes them by a `dunderKey`
hypothesis. -/
def setKeyAtLevel : Attributes → Nat → String → AttrValue → Except String Attributes
  | .mk fields pointee, 0, key, value =>
      if key = "pointee" then .ok (.mk fields value)
      else if (lookupField fields key).isSome || classAttrNames.contains key then
        .ok (.mk (updateField fields key value) pointee)
      else if key = "in" then .ok (.mk (updateField fields "input" value) pointee)
      else if key = "out" then .ok (.mk (updateField fields "output" value) pointee)
      else if key = "return" then .ok (.mk (updateField fields "returned" value) pointee)
      else .error ("unknown OMNI_ATTR: " ++ key)
  | .mk fields pointee, level + 1, key, value =>
      let p := if pointee.truthy then pointee else .vAttrs defaultAttributes
      match p with
      | .vAttrs a =>
          match setKeyAtLevel a level key value with
          | .ok a2 => .ok (.mk fields (.vAttrs a2))
          | .error e => .error e
      | _ => .error "attribute navigation target is not an Attributes record"

/-- ASCII whitespace stripped by Python `str.strip()`; the annotation grammar
is ASCII, so the unicode whitespace classes cannot occur. -/
def isPySpace (c : Char) : Bool :=
  c = ' ' || c = '\t' || c = '\n' || c = '\r' || c = '\x0b' || c = '\x0c'

/-- Python `str.strip()` on a token, as a character list. -/
def trimChars (l : List Char) : List Char :=
  ((l.dropWhile isPySpace).reverse.dropWhile isPySpace).reverse

/-- Python `str.split` on a one-character separator (no maxsplit): always
returns at least one piece, and empty pieces between adjacent separators. -/
def splitChar (sep : Char) : List Char → List (List Char)
  | [] => [[]]
  | c :: cs =>
      if c = sep then [] :: splitChar sep cs
      else
        match splitChar sep cs with
        | h :: t => (c :: h) :: t
        | [] => [[c]]

/-- Number of leading `*` characters of a key token (the indirection level
counted by the `while key.startswith` loop of `_get_key_and_attributes`). -/
def countStars (l : List Char) : Nat :=
  (l.takeWhile (· = '*')).length

/-- The key with its leading `*` characters removed. -/
def dropStars (l : List Char) : List Char :=
  l.dropWhile (· = '*')

/-- Mirror of the per-token branch of `Attributes._parse`: a token holding
`=` is split on `=` into stripped pieces which must unpack into exactly a
key and a value (otherwise Python's tuple unpacking raises `ValueError`); a
bare token carries the value `True`. -/
def applyToken (a : Attributes) (t : List Char) : Except String Attributes :=
  if t.contains '=' then
    match (splitChar '=' t).map trimChars with
    | [left, value] =>
        setKeyAtLevel a (countStars left) (String.mk (dropStars left)) (.vStr (String.mk value))
    | _ => .error "token does not unpack into key and value"
  else
    setKeyAtLevel a (countStars t) (String.mk (dropStars t)) (.vBool true)

/-- Comma-split, stripped tokens of an annotation payload. -/
def payloadTokens (s : String) : List (List Char) :=
  (splitChar ',' s.toList).map trimChars

/-- Mirror of `Attributes._parse` applied to the annotation payload (the
text after the `omni_attr:` marker): split on commas, strip each token, and
apply the tokens in order to a fresh record. -/
def parseOmniAttr (s : String) : Except String Attributes :=
  (payloadTokens s).foldlM applyToken defaultAttributes

/-- Depth of the chain of `pointee` records (0 when `pointee` is not an
`Attributes` record). -/
def Attributes.depth : Attributes → Nat
  | .mk _ (.vAttrs a) => a.depth + 1
  | .mk _ _ => 0

/-- Indirection level of one token, as counted by the parser. -/
def tokenStars (t : List Char) : Nat :=
  if t.contains '=' then
    match (splitChar '=' t).map trimChars with
    | left :: _ => countStars left
    | [] => 0
  else countStars t

/-- Key of one token after stripping the `*` prefix. -/
def tokenKey (t : List Char) : String :=
  if t.contains '=' then
    match (splitChar '=' t).map trimChars with
    | left :: _ => String.mk (dropStars left)
    | [] => ""
  else String.mk (dropStars t)

/-- Largest number of `*` prefixes over the tokens of an annotation payload. -/
def maxStarsOf (s : String) : Nat :=
  (payloadTokens s).foldl (fun acc t => max acc (tokenStars t)) 0

/-- The record reached by following `level` `pointee` links. -/
def getAtLevel : Attributes → Nat → Option Attributes
  | a, 0 => some a
  | .mk _ (.vAttrs p), n + 1 => getAtLevel p n
  | .mk _ _, _ + 1 => none

theorem setKeyAtLevel_depth (level : Nat) :
    ∀ (a : Attributes) (key : String) (value : AttrValue) (a2 : Attributes),
      key ≠ "pointee" → setKeyAtLevel a level key value = .ok a2 →
      a2.depth = max a.depth level := by
  induction level with
  | zero =>
      intro a key value a2 hk h
      obtain ⟨f, p⟩ := a
      unfold setKeyAtLevel at h
      simp only [hk, if_false] at h
      split at h <;> simp_all [Attributes.depth] <;>
        (first
          | (cases h; cases p <;> simp [Attributes.depth])
          | (split at h <;>
              (first
                | (cases h; cases p <;> simp [Attributes.depth])
                | (split at h <;>
                    (first
                      | (cases h; cases p <;> simp [Attributes.depth])
                      | (split at h <;> first
                          | (cases h; cases p <;> simp [Attributes.depth])
                          | cases h))))))
  | succ n ih =>
      intro a key value a2 hk h
      obtain ⟨f, p⟩ := a
      unfold setKeyAtLevel at h
      by_cases hp : p.truthy
      · simp only [hp, if_true] at h
        cases p with
        | vAttrs inner =>
            dsimp only at h
            cases hrec : setKeyAtLevel inner n key value with
            | ok b =>
                rw [hrec] at h
                cases h
                have := ih inner key value b hk hrec
                simp [Attributes.depth, this]
                omega
            | error e => rw [hrec] at h; cases h
        | vNone => simp [AttrValue.truthy] at hp
        | vBool b => simp [AttrValue.truthy] at hp; subst hp; cases h
        | vStr s => cases h
      · rw [if_neg (by simpa using hp)] at h
        dsimp only at h
        cases hrec : setKeyAtLevel defaultAttributes n key value with
        | ok b =>
            rw [hrec] at h
            cases h
            have := ih defaultAttributes key value b hk hrec
            have hd : (defaultAttributes).depth = 0 := rfl
            rw [hd] at this
            have hp0 : Attributes.depth (.mk f p) = 0 := by
              cases p <;> simp_all [Attributes.depth, AttrValue.truthy]
            simp [Attributes.depth, this, hp0]
        | error e => rw [hrec] at h; cases h

theorem applyToken_depth (t : List Char) (a a2 : Attributes) (hk : tokenKey t ≠ "pointee")
    (h : applyToken a t = .ok a2) : a2.depth = max a.depth (tokenStars t) := by
  unfold applyToken at h
  unfold tokenKey at hk
  unfold tokenStars
  by_cases hc : t.contains '='
  · rw [if_pos hc] at h hk ⊢
    cases hl : (splitChar '=' t).map trimChars with
    | nil => rw [hl] at h; dsimp only at h; cases h
    | cons left rest =>
        rw [hl] at h hk
        dsimp only at hk ⊢
        cases rest with
        | nil => dsimp only at h; cases h
        | cons value rest2 =>
            cases rest2 with
            | nil =>
                dsimp only at h
                exact setKeyAtLevel_depth (countStars left) a _ _ a2 hk h
            | cons x xs => dsimp only at h; cases h
  · rw [if_neg hc] at h hk ⊢
    exact setKeyAtLevel_depth (countStars t) a _ _ a2 hk h

theorem foldTokens_depth (ts : List (List Char)) :
    ∀ (a a2 : Attributes), (∀ t ∈ ts, tokenKey t ≠ "pointee") →
      ts.foldlM applyToken a = .ok a2 →
      a2.depth = ts.foldl (fun acc t => max acc (tokenStars t)) a.depth := by
  induction ts with
  | nil =>
      intro a a2 _ h
      simp only [List.foldlM_nil] at h
      cases h
      simp
  | cons t rest ih =>
      intro a a2 hk h
      simp only [List.foldlM_cons] at h
      cases ht : applyToken a t with
      | ok b =>
          rw [ht] at h
          have h2 : List.foldlM applyToken b rest = .ok a2 := h
          have hb := applyToken_depth t a b (hk t (by simp)) ht
          have := ih b a2 (fun u hu => hk u (by simp [hu])) h2
          simp only [List.foldl_cons]
          rw [this, hb]
      | error e =>
          rw [ht] at h
          have h2 : (Except.error e : Except String Attributes) = .ok a2 := h
          cases h2

/-- Claim C6 counterexample: parsing the annotation payload `*in,pointee`
succeeds (the `pointee` token passes the `hasattr` dispatch and overwrites the
`pointee` slot with `True`), leaving a chain of `pointee` records of depth 0,
while the largest number of `*` prefixes over its keys is 1 — so the chain is
not as deep as the largest `*` count. -/
theorem attr_depth_counterexample :
    (parseOmniAttr "*in,pointee").isOk = true
      ∧ (match parseOmniAttr "*in,pointee" with
          | .ok a => a.depth
          | .error _ => 999) = 0
      ∧ maxStarsOf "*in,pointee" = 1 := by
  refine ⟨by decide, by decide, by decide⟩

/-- Claim C6 (amended): parsing `*count=len,*in` yields a root record with
`count` and `input` unset (still `None`/`False`) and a `pointee` record with
`count == len` and `input == True`; and for every annotation payload none of
whose token keys (after stripping `*`) is the attribute name `pointee`, a
successful parse produces a `pointee` chain exactly as deep as the largest
number of `*` prefixes seen on any key. -/
theorem attr_parse_nesting (s : String)
    (hk : ∀ t ∈ payloadTokens s, tokenKey t ≠ "pointee")
    (a : Attributes) (h : parseOmniAttr s = .ok a) :
    a.depth = maxStarsOf s
      ∧ (match parseOmniAttr "*count=len,*in" with
          | .ok r =>
              lookupField r.fields "count" = some .vNone
                ∧ lookupField r.fields "input" = some (.vBool false)
                ∧ (match r.pointee with
                    | .vAttrs p =>
                        lookupField p.fields "count" = some (.vStr "len")
                          ∧ lookupField p.fields "input" = some (.vBool true)
                    | _ => False)
          | .error _ => False) := by
  constructor
  · have := foldTokens_depth (payloadTokens s) defaultAttributes a hk h
    rw [this]
    have hd : defaultAttributes.depth = 0 := rfl
    rw [hd, maxStarsOf]
  · exact ⟨rfl, rfl, rfl, rfl⟩

theorem attr_parse_nesting_witness :
    ∃ a : Attributes,
      parseOmniAttr "*count=len,*in" = .ok a ∧ a.depth = maxStarsOf "*count=len,*in" := by
  cases hp : parseOmniAttr "*count=len,*in" with
  | ok a => exact ⟨a, rfl, (attr_parse_nesting "*count=len,*in" (by decide) a hp).1⟩
  | error e =>
      have hok : (parseOmniAttr "*count=len,*in").isOk = true := by decide
      rw [hp] at hok
      exact Bool.noConfusion hok

/-- Claim C9 counterexample: the token key `pointee` is not one of the known
option names of the `Attributes` record and is not one of the three renamed
keys, yet parsing the annotation payload `pointee` raises no error — the
`hasattr` dispatch accepts it (it names the nesting slot set in `__init__`)
and overwrites `pointee` with `True`. -/
theorem unknown_key_counterexample :
    (lookupField defaultFields "pointee") = none
      ∧ ("pointee" ∈ ["in", "out", "return"]) = False
      ∧ (parseOmniAttr "pointee").isOk = true
      ∧ parseOmniAttr "pointee" = .ok (.mk defaultFields (.vBool true)) := by
  refine ⟨rfl, by simp, by decide, rfl⟩

/-- Claim C9 (amended): applying one annotation token whose stripped key is
not double-underscore-prefixed, at any indirection level, to a fresh record
raises a hard error exactly when the key is not an attribute of the record
object — neither a known option name, nor the `pointee` slot, nor one of the
non-dunder methods of the class — and is not one of the three renamed keys
`in`/`out`/`return`; the renamed keys set `input`, `output` and `returned`
respectively on the record at the key's indirection level.  Keys beginning
with `__` (such as `__init__`, a method of the class, and the attribute
names inherited from Python `object`) are also accepted by the source's
`hasattr` dispatch and so parse without `ValueError`; they are excluded here
by the `dunderKey` hypothesis because their exact set is
interpreter-defined. -/
theorem unknown_key_rejection (level : Nat) (key : String) (value : AttrValue)
    (_hd : dunderKey key = false) :
    ((setKeyAtLevel defaultAttributes level key value).isOk = true
        ↔ ((lookupField defaultFields key).isSome = true
            ∨ classAttrNames.contains key = true
            ∨ key ∈ ["pointee", "in", "out", "return"]))
      ∧ (∀ v : AttrValue, ∃ a2 : Attributes,
          setKeyAtLevel defaultAttributes level "in" v = .ok a2
            ∧ (getAtLevel a2 level).map (fun r => lookupField r.fields "input")
                = some (some v))
      ∧ (∀ v : AttrValue, ∃ a2 : Attributes,
          setKeyAtLevel defaultAttributes level "out" v = .ok a2
            ∧ (getAtLevel a2 level).map (fun r => lookupField r.fields "output")
                = some (some v))
      ∧ (∀ v : AttrValue, ∃ a2 : Attributes,
          setKeyAtLevel defaultAttributes level "return" v = .ok a2
            ∧ (getAtLevel a2 level).map (fun r => lookupField r.fields "returned")
                = some (some v)) := by
  induction level with
  | zero =>
      have h0 : ∀ (k : String) (v : AttrValue),
          setKeyAtLevel defaultAttributes 0 k v
            = (if k = "pointee" then .ok (.mk defaultFields v)
              else if (lookupField defaultFields k).isSome || classAttrNames.contains k then
                .ok (.mk (updateField defaultFields k v) .vNone)
              else if k = "in" then .ok (.mk (updateField defaultFields "input" v) .vNone)
              else if k = "out" then .ok (.mk (updateField defaultFields "output" v) .vNone)
              else if k = "return" then .ok (.mk (updateField defaultFields "returned" v) .vNone)
              else .error ("unknown OMNI_ATTR: " ++ k)) := fun _ _ => rfl
      refine ⟨?_, ?_, ?_, ?_⟩
      · rw [h0]
        by_cases h1 : key = "pointee"
        · simp [h1, Except.isOk, Except.toBool]
        · rw [if_neg h1]
          by_cases h2 : ((lookupField defaultFields key).isSome
              || classAttrNames.contains key) = true
          · rw [if_pos h2]
            simp only [Bool.or_eq_true] at h2
            simp only [Except.isOk, Except.toBool, true_iff]
            tauto
          · rw [if_neg h2]
            simp only [Bool.or_eq_true, not_or, Bool.not_eq_true] at h2
            by_cases h3 : key = "in"
            · simp [h3, Except.isOk, Except.toBool]
            · rw [if_neg h3]
              by_cases h4 : key = "out"
              · simp [h4, Except.isOk, Except.toBool]
              · rw [if_neg h4]
                by_cases h5 : key = "return"
                · simp [h5, Except.isOk, Except.toBool]
                · rw [if_neg h5]
                  have h6 : key ∉ classAttrNames := by simpa using h2.2
                  simp [Except.isOk, Except.toBool, h1, h2.1, h2.2, h3, h4, h5, h6]
      · intro v; exact ⟨.mk (updateField defaultFields "input" v) .vNone, rfl, rfl⟩
      · intro v; exact ⟨.mk (updateField defaultFields "output" v) .vNone, rfl, rfl⟩
      · intro v; exact ⟨.mk (updateField defaultFields "returned" v) .vNone, rfl, rfl⟩
  | succ n ih =>
      have hstep : ∀ (k : String) (v : AttrValue),
          setKeyAtLevel defaultAttributes (n + 1) k v
            = match setKeyAtLevel defaultAttributes n k v with
              | .ok a2 => .ok (.mk defaultFields (.vAttrs a2))
              | .error e => .error e := fun _ _ => rfl
      refine ⟨?_, ?_, ?_, ?_⟩
      · rw [hstep key value]
        have hi := ih.1
        cases hrec : setKeyAtLevel defaultAttributes n key value with
        | ok b => rw [hrec] at hi; simpa [Except.isOk, Except.toBool] using hi
        | error e => rw [hrec] at hi; simpa [Except.isOk, Except.toBool] using hi
      · intro v
        obtain ⟨a2, ha, hg⟩ := ih.2.1 v
        refine ⟨.mk defaultFields (.vAttrs a2), ?_, by simpa [getAtLevel] using hg⟩
        rw [hstep "in" v, ha]
      · intro v
        obtain ⟨a2, ha, hg⟩ := ih.2.2.1 v
        refine ⟨.mk defaultFields (.vAttrs a2), ?_, by simpa [getAtLevel] using hg⟩
        rw [hstep "out" v, ha]
      · intro v
        obtain ⟨a2, ha, hg⟩ := ih.2.2.2 v
        refine ⟨.mk defaultFields (.vAttrs a2), ?_, by simpa [getAtLevel] using hg⟩
        rw [hstep "return" v, ha]

/-- Claim C9 witness: the ordinary (non-dunder) unknown key `frobnicate` is
rejected at indirection level 1, and the renamed key `in` is accepted there,
setting `input` on the level-1 record. -/
theorem unknown_key_rejection_witness :
    dunderKey "frobnicate" = false
      ∧ (setKeyAtLevel defaultAttributes 1 "frobnicate" (.vBool true)).isOk = false
      ∧ ∃ a2 : Attributes,
          setKeyAtLevel defaultAttributes 1 "in" (.vBool true) = .ok a2
            ∧ (getAtLevel a2 1).map (fun r => lookupField r.fields "input")
                = some (some (.vBool true)) := by
  have h := unknown_key_rejection 1 "frobnicate" (.vBool true) (by decide)
  refine ⟨by decide, ?_, h.2.1 (.vBool true)⟩
  cases hok : (setKeyAtLevel defaultAttributes 1 "frobnicate" (.vBool true)).isOk with
  | false => rfl
  | true =>
      rcases h.1.mp hok with h1 | h1 | h1 <;> revert h1 <;> decide

/-! ## Clang type oracle and ABI-safety validator (`extract.py`)

The front end is an external oracle (spec section 6): a type is modelled in
the canonical form `is_abi_safe_type` actually inspects — `void`, a scalar
builtin, a pointer, or a reference to a class/struct declaration.  Records
are identified by an index into the `Hierarchy` database; the database is
modelled by the function `chains` giving, for each record, the ancestor
chain `Hierarchy.get_hierarchy` would return for it (the chain starts with
the record itself, so it is never empty for a valid cursor; an empty chain
models the `assert len(chain) > 0`).  The POD-ness clang computes for a
record type (`Type.is_pod`) is carried on the record as an oracle field;
scalar builtins and pointers are always POD in C++, `void` is not — which is
why the source tests `t.get_canonical().is_pod() or is_void(t)`. -/

inductive AccessSpec where
  | publicAccess
  | protectedAccess
  | privateAccess
  | noAccess
deriving DecidableEq, Repr

inductive CType where
  | void
  | builtin (name : String)
  | pointer (pointee : CType)
  | record (declId : Nat)
deriving DecidableEq, Repr

/-- A data-member child of a record: name, access specifier, type, and the
`Attributes` record `extract.get_attributes` yields for it (`none` when the
field carries no `OMNI_ATTR`). -/
structure FieldDecl where
  name : String
  access : AccessSpec
  ftype : CType
  fattrs : Option Attributes

/-- A child of a record declaration, as `is_standard_layout` distinguishes
them: a `FIELD_DECL`, or any other member (for which only the
`is_virtual_method` / `is_pure_virtual_method` flags are consulted). -/
inductive RecordChild where
  | fieldMember (f : FieldDecl)
  | methodMember (isVirtual : Bool) (isPure : Bool)

/-- A class/struct declaration as the validator sees it: its type spelling
(checked against the root marker), clang's POD verdict for its type, and its
children. -/
structure RecordDecl where
  typeSpelling : String
  isPod : Bool
  children : List RecordChild

/-- The `Hierarchy` database restricted to what the ABI-safety validator
queries: the ancestor chain of each record declaration. -/
structure HierDb where
  chains : Nat → List RecordDecl

/-- Clang `Type.is_pod()` on a (canonical) modelled type.  The first element
of a record's chain is the record itself. -/
def typeIsPod (h : HierDb) : CType → Bool
  | .void => false
  | .builtin _ => true
  | .pointer _ => true
  | .record i =>
      match (h.chains i).head? with
      | some r => r.isPod
      | none => false

/-- Mirror of `Hierarchy.is_interface_pointer`: a pointer whose pointee's
declaration chain ends at `omni::core::IObject_abi`. -/
def isInterfacePointer (h : HierDb) : CType → Bool
  | .pointer (.record i) =>
      match (h.chains i).getLast? with
      | some r => r.typeSpelling = "omni::core::IObject_abi"
      | none => false
  | _ => false

/-- Python truthiness of the optional `Attributes` in
`attributes and attributes.allow_unsafe_abi_in_test`. -/
def allowsUnsafeAbi (attrs : Option Attributes) : Bool :=
  match attrs with
  | some a =>
      match lookupField a.fields "allow_unsafe_abi_in_test" with
      | some v => v.truthy
      | none => false
  | none => false

mutual

/-- Mirror of `extract.is_abi_safe_type`:
`allow_unsafe or (t.get_canonical().is_pod() or is_void(t)) or
is_standard_layout(hierarchy, t, reporter)`.  The `or` is lazy, so the
structural walk (and its warnings) runs only when the earlier disjuncts are
false.  The result carries the warnings emitted through the reporter.  The
Python recursion is unbounded (mutually recursive with
`is_standard_layout`); `fuel` bounds it, `none` meaning no result within
`fuel` (Python would raise `RecursionError`). -/
def isAbiSafeType (h : HierDb) (attrs : Option Attributes) (t : CType) :
    Nat → Option (Bool × List DiagnosticMessage)
  | 0 => none
  | fuel + 1 =>
      if allowsUnsafeAbi attrs then some (true, [])
      else if typeIsPod h t || (t == .void) then some (true, [])
      else isStandardLayout h t fuel

/-- Mirror of `extract.is_standard_layout`: walk the declaration's ancestor
chain from root to leaf (`for i in reversed(range(len(chain)))`), rejecting
on subclass data members, mixed access levels, virtual members, or an
ABI-unsafe member type.  Defined only on record types: on any other type the
source dereferences an invalid declaration cursor (it is only reachable for
non-POD non-record types, which no claim exercises), modelled as `none`.
An empty chain models the failing `assert len(chain) > 0`. -/
def isStandardLayout (h : HierDb) (t : CType) :
    Nat → Option (Bool × List DiagnosticMessage)
  | 0 => none
  | fuel + 1 =>
      match t with
      | .record declId =>
          match h.chains declId with
          | [] => none
          | chain => layoutWalk h chain.enum.reverse 0 .noAccess fuel
      | _ => none

/-- The outer loop of `is_standard_layout` over `(index, cursor)` pairs in
descending index order, threading `chain_with_data_members` (`cwdm`) and
`member_access_level` (`acc`).  Result `(false, msgs)` is an early `return
False`; `(true, msgs)` reaches the final `return True`. -/
def layoutWalk (h : HierDb) (items : List (Nat × RecordDecl)) (cwdm : Nat) (acc : AccessSpec) :
    Nat → Option (Bool × List DiagnosticMessage)
  | 0 => none
  | fuel + 1 =>
      match items with
      | [] => some (true, [])
      | (i, r) :: rest =>
          match childWalk h i r.children cwdm acc fuel with
          | none => none
          | some (msgs, none) => some (false, msgs)
          | some (msgs, some (cwdm2, acc2)) =>
              match layoutWalk h rest cwdm2 acc2 fuel with
              | none => none
              | some (b, msgs2) => some (b, msgs ++ msgs2)

/-- The inner loop of `is_standard_layout` over one record's children.
Inner result `none` is an early `return False`; `some (cwdm, acc)` is the
updated state after this record. -/
def childWalk (h : HierDb) (i : Nat) (children : List RecordChild) (cwdm : Nat) (acc : AccessSpec) :
    Nat → Option (List DiagnosticMessage × Option (Nat × AccessSpec))
  | 0 => none
  | fuel + 1 =>
      match children with
      | [] => some ([], some (cwdm, acc))
      | .methodMember isV isPV :: rest =>
          if isV || isPV then
            some ([.mk .warning none "virtual methods are not ABI safe" []], none)
          else
            childWalk h i rest cwdm acc fuel
      | .fieldMember f :: rest =>
          if cwdm > i then
            some ([.mk .warning none
              "declaring data members in a subclass of a class with data members is not ABI safe"
              []], none)
          else
            let cwdm2 := i
            if acc = .noAccess ∨ acc = f.access then
              let acc2 := if acc = .noAccess then f.access else acc
              match fieldTypeWalk h f.fattrs (some f.ftype) fuel with
              | none => none
              | some (msgs, false) => some (msgs, none)
              | some (msgs, true) =>
                  match childWalk h i rest cwdm2 acc2 fuel with
                  | none => none
                  | some (msgs2, st) => some (msgs ++ msgs2, st)
            else
              some ([.mk .warning none
                "all members must have same access level to be ABI safe" []], none)

/-- The `while t is not None` loop of `is_standard_layout` over one field's
type: check ABI safety of each pointer-indirection level, unwrapping
non-interface pointers. -/
def fieldTypeWalk (h : HierDb) (fattrs : Option Attributes) (t : Option CType) :
    Nat → Option (List DiagnosticMessage × Bool)
  | 0 => none
  | fuel + 1 =>
      match t with
      | none => some ([], true)
      | some ty =>
          match isAbiSafeType h fattrs ty fuel with
          | none => none
          | some (b, msgs) =>
              if !b then some (msgs ++ [.mk .warning none "is not ABI safe" []], false)
              else
                match ty with
                | .pointer p =>
                    if isInterfacePointer h ty then some (msgs, true)
                    else
                      match fieldTypeWalk h fattrs (some p) fuel with
                      | none => none
                      | some (msgs2, b2) => some (msgs ++ msgs2, b2)
                | _ => some (msgs, true)

end

/-! ## Method construction (`model.py`, `Method.__init__`) -/

/-- The clang exception-specification kinds `Method.__init__` distinguishes:
`BASIC_NOEXCEPT` versus everything else. -/
inductive ExceptionSpec where
  | basicNoexcept
  | otherSpec
deriving DecidableEq, Repr

/-- The data `Method.__init__` reads from a `CXX_METHOD` cursor with no
`PARM_DECL` children and no annotation children: with an empty parameter
list the parameter-construction loop and the count-of marking loop at the
end of `__init__` run zero iterations and contribute no diagnostics, and
`attrs` is the `Attributes(None)` default installed by `CursorObject`. -/
structure MethodCursor where
  spelling : String
  pureVirtual : Bool
  exceptionKind : ExceptionSpec
  access : AccessSpec
  resultType : CType
  attrs : Attributes

/-- Python `s.endswith "_abi"` (the last four characters are `_abi`).  Lean's
`String.endsWith` does not reduce in the kernel, so the check is expressed
on the character list. -/
def endsWithAbi (s : String) : Bool :=
  (s.toList.reverse.take 4).reverse = ['_', 'a', 'b', 'i']

/-- Python `s[:-4]`: all but the last four characters (empty when the string
is no longer than four characters). -/
def dropLast4 (s : String) : String :=
  String.mk (s.toList.take (s.toList.length - 4))

def errMsg (text : String) : DiagnosticMessage := .mk .error none text []

/-- Mirror of the validation prefix of `Method.__init__` (model.py lines
510-526): in order, the `_abi`-suffix check (the name is unconditionally
`spelling[:-4]`), the pure-virtual check, the `noexcept` check, the
ABI-safety check of `cursor.type.get_result()` (whose internal warnings are
reported first, then the error if the result was unsafe), and the
protected-access check.  Returns the method's public name and the emitted
diagnostics; `none` when the ABI-safety recursion exceeds `fuel`. -/
def methodInitChecks (h : HierDb) (c : MethodCursor) (fuel : Nat) :
    Option (String × List DiagnosticMessage) :=
  let msgs1 := if endsWithAbi c.spelling then [] else
    [errMsg "interface ABI methods must end in _abi"]
  let name := dropLast4 c.spelling
  let msgs2 := if c.pureVirtual then [] else [errMsg "method must be pure virtual"]
  let msgs3 := if c.exceptionKind = .basicNoexcept then [] else
    [errMsg "noexcept must be specified"]
  match isAbiSafeType h (some c.attrs) c.resultType fuel with
  | none => none
  | some (safe, wmsgs) =>
      let msgs4 := wmsgs ++ (if safe then [] else [errMsg "return type is not ABI safe"])
      let msgs5 := if c.access = .protectedAccess then [] else
        [errMsg "ABI method must be protected"]
      some (name, msgs1 ++ msgs2 ++ msgs3 ++ msgs4 ++ msgs5)

/-- Texts of the error-level diagnostics in a message list. -/
def errorTexts (msgs : List DiagnosticMessage) : List String :=
  (msgs.filter (fun m => m.level == .error)).map DiagnosticMessage.message

@[simp]
theorem errorTexts_nil : errorTexts [] = [] := rfl

@[simp]
theorem errorTexts_append (a b : List DiagnosticMessage) :
    errorTexts (a ++ b) = errorTexts a ++ errorTexts b := by
  simp [errorTexts]

@[simp]
theorem errorTexts_warn (t : String) :
    errorTexts [.mk .warning none t []] = [] := rfl

@[simp]
theorem errorTexts_err (t : String) : errorTexts [errMsg t] = [t] := rfl

@[simp]
theorem errMsg_level (t : String) : (errMsg t).level = .error := rfl

@[simp]
theorem errMsg_message (t : String) : (errMsg t).message = t := rfl

@[simp]
theorem errorTexts_cons (m : DiagnosticMessage) (rest : List DiagnosticMessage) :
    errorTexts (m :: rest)
      = (if m.level == .error then [m.message] else []) ++ errorTexts rest := by
  simp only [errorTexts, List.filter_cons]
  split <;> simp

/-- The ABI-safety validator reports only warning-level diagnostics: every
`reporter` call in `is_standard_layout` is `reporter.warning`.  (The error
for an unsafe type is raised by the validator's callers.) -/
theorem validator_noerror (fuel : Nat) :
    (∀ (h : HierDb) (attrs : Option Attributes) (t : CType) (r : Bool × List DiagnosticMessage),
        isAbiSafeType h attrs t fuel = some r → errorTexts r.2 = [])
      ∧ (∀ (h : HierDb) (t : CType) (r : Bool × List DiagnosticMessage),
          isStandardLayout h t fuel = some r → errorTexts r.2 = [])
      ∧ (∀ (h : HierDb) (items : List (Nat × RecordDecl)) (cwdm : Nat) (acc : AccessSpec)
          (r : Bool × List DiagnosticMessage),
          layoutWalk h items cwdm acc fuel = some r → errorTexts r.2 = [])
      ∧ (∀ (h : HierDb) (i : Nat) (children : List RecordChild) (cwdm : Nat) (acc : AccessSpec)
          (r : List DiagnosticMessage × Option (Nat × AccessSpec)),
          childWalk h i children cwdm acc fuel = some r → errorTexts r.1 = [])
      ∧ (∀ (h : HierDb) (fattrs : Option Attributes) (t : Option CType)
          (r : List DiagnosticMessage × Bool),
          fieldTypeWalk h fattrs t fuel = some r → errorTexts r.1 = []) := by
  induction fuel with
  | zero =>
      refine ⟨?_, ?_, ?_, ?_, ?_⟩ <;> intros <;>
        simp [isAbiSafeType, isStandardLayout, layoutWalk, childWalk, fieldTypeWalk] at *
  | succ fuel ih =>
      obtain ⟨ihA, ihS, ihL, ihC, ihF⟩ := ih
      refine ⟨?_, ?_, ?_, ?_, ?_⟩
      · intro h attrs t r hr
        unfold isAbiSafeType at hr
        split at hr
        · cases hr; rfl
        · split at hr
          · cases hr; rfl
          · exact ihS h t r hr
      · intro h t r hr
        unfold isStandardLayout at hr
        split at hr
        · split at hr
          · cases hr
          · exact ihL h _ 0 .noAccess r hr
        · cases hr
      · intro h items cwdm acc r hr
        unfold layoutWalk at hr
        split at hr
        · cases hr; rfl
        · rename_i i rec rest
          split at hr
          · cases hr
          · cases hr
            exact ihC h i rec.children cwdm acc _ (by assumption)
          · rename_i msgs cwdm2 acc2 hcw
            split at hr
            · cases hr
            · cases hr
              rename_i b msgs2 hlw
              have h1 := ihC h i rec.children cwdm acc _ hcw
              have h2 := ihL h rest cwdm2 acc2 _ hlw
              simp at h1 h2 ⊢
              simp [h1, h2]
      · intro h i children cwdm acc r hr
        unfold childWalk at hr
        split at hr
        · cases hr; rfl
        · split at hr
          · cases hr; rfl
          · exact ihC h i _ cwdm acc r hr
        · rename_i f rest
          split at hr
          · cases hr; rfl
          · split at hr
            · split at hr <;>
                [skip; skip] <;>
                (split at hr
                 · cases hr
                 · cases hr
                   rename_i msgs hf
                   exact ihF h f.fattrs _ _ hf
                 · rename_i msgs hf
                   dsimp only at hr
                   split at hr
                   · cases hr
                   · cases hr
                     rename_i msgs2 st hcw
                     have h1 := ihF h f.fattrs _ _ hf
                     have h2 := ihC h i rest i _ _ hcw
                     simp [h1, h2])
            · cases hr; rfl
      · intro h fattrs t r hr
        unfold fieldTypeWalk at hr
        split at hr
        · cases hr; rfl
        · rename_i ty
          split at hr
          · cases hr
          · rename_i b msgs hab
            have h1 := ihA h fattrs ty _ hab
            split at hr
            · cases hr
              simp at h1 ⊢
              simp [h1]
            · split at hr
              · split at hr
                · cases hr; exact h1
                · split at hr
                  · cases hr
                  · cases hr
                    rename_i msgs2 b2 hfw
                    have h2 := ihF h fattrs _ _ hfw
                    simp at h1 h2 ⊢
                    simp [h1, h2]
              · cases hr; exact h1

theorem dropLast4_append_abi (s : String) (h : endsWithAbi s = true) :
    dropLast4 s ++ "_abi" = s := by
  unfold endsWithAbi at h
  simp only [decide_eq_true_eq] at h
  have h4 : s.toList.reverse.take 4 = ['i', 'b', 'a', '_'] := by
    have := congrArg List.reverse h
    simpa using this
  have hlen : 4 ≤ s.toList.length := by
    by_contra hc
    push_neg at hc
    have hlt : (s.toList.reverse.take 4).length < 4 := by
      simp only [List.length_take, List.length_reverse]
      omega
    rw [h4] at hlt
    simp at hlt
  have h5 : (s.toList.drop (s.toList.length - 4)).reverse
      = s.toList.reverse.take (s.toList.length - (s.toList.length - 4)) := List.reverse_drop
  have h6 : s.toList.length - (s.toList.length - 4) = 4 := by omega
  rw [h6, h4] at h5
  have hdrop : s.toList.drop (s.toList.length - 4) = ['_', 'a', 'b', 'i'] := by
    have := congrArg List.reverse h5
    simpa using this
  calc dropLast4 s ++ "_abi"
      = String.mk (s.toList.take (s.toList.length - 4) ++ ['_', 'a', 'b', 'i']) := rfl
    _ = String.mk s.toList := by rw [← hdrop, List.take_append_drop]
    _ = s := rfl

/-- Claim C5: building a `Method` from a member-function cursor (with no
parameters) reports an error-level diagnostic for each violated condition
and no others: missing `_abi` suffix, not pure virtual, not
`noexcept`, ABI-unsafe return type, and access other than protected
(in source order, with the validator's warnings carrying no error); and
when the declared name does carry the `_abi` suffix, the method's public
name is that name with the suffix stripped (appending `_abi` to the public
name restores the declared name). -/
theorem method_checks_iff (h : HierDb) (c : MethodCursor) (fuel : Nat)
    (safe : Bool) (wmsgs : List DiagnosticMessage)
    (habi : isAbiSafeType h (some c.attrs) c.resultType fuel = some (safe, wmsgs)) :
    ∃ msgs : List DiagnosticMessage,
      methodInitChecks h c fuel = some (dropLast4 c.spelling, msgs)
        ∧ errorTexts msgs
            = (if endsWithAbi c.spelling then [] else ["interface ABI methods must end in _abi"])
              ++ (if c.pureVirtual then [] else ["method must be pure virtual"])
              ++ (if c.exceptionKind = .basicNoexcept then [] else ["noexcept must be specified"])
              ++ (if safe then [] else ["return type is not ABI safe"])
              ++ (if c.access = .protectedAccess then [] else ["ABI method must be protected"])
        ∧ (endsWithAbi c.spelling = true → dropLast4 c.spelling ++ "_abi" = c.spelling) := by
  have hw : errorTexts wmsgs = [] := (validator_noerror fuel).1 h (some c.attrs) c.resultType _ habi
  refine ⟨_, by unfold methodInitChecks; rw [habi], ?_,
    fun he => dropLast4_append_abi c.spelling he⟩
  by_cases h1 : endsWithAbi c.spelling <;>
    by_cases h2 : c.pureVirtual <;>
      by_cases h3 : c.exceptionKind = .basicNoexcept <;>
        cases safe <;>
          by_cases h5 : c.access = .protectedAccess <;>
            simp [h1, h2, h3, h5, hw]

theorem method_checks_iff_witness :
    ∃ msgs : List DiagnosticMessage,
      methodInitChecks { chains := fun _ => [] }
          { spelling := "getThing_abi", pureVirtual := false,
            exceptionKind := .basicNoexcept, access := .publicAccess,
            resultType := .builtin "int", attrs := defaultAttributes } 2
        = some ("getThing", msgs)
      ∧ errorTexts msgs = ["method must be pure virtual", "ABI method must be protected"] := by
  obtain ⟨msgs, hm, he, _⟩ := method_checks_iff { chains := fun _ => [] }
    { spelling := "getThing_abi", pureVirtual := false,
      exceptionKind := .basicNoexcept, access := .publicAccess,
      resultType := .builtin "int", attrs := defaultAttributes } 2 true [] rfl
  refine ⟨msgs, ?_, ?_⟩
  · rw [hm]
    have : dropLast4 "getThing_abi" = "getThing" := by decide
    rw [this]
  · rw [he]
    decide

/-- The record used in the C1 counterexample: a class declaring a pure
virtual member function; clang reports its type as non-POD, and it does not
descend from the root interface marker. -/
def badRecord : RecordDecl :=
  { typeSpelling := "Bad", isPod := false, children := [.methodMember true true] }

/-- A hierarchy in which every record resolves to the `badRecord` chain. -/
def hBad : HierDb := { chains := fun _ => [badRecord] }

/-- A method cursor satisfying every `Method.__init__` requirement except
that its return type is a raw pointer to `badRecord`, with no parameters. -/
def mBad : MethodCursor :=
  { spelling := "createBad_abi", pureVirtual := true, exceptionKind := .basicNoexcept,
    access := .protectedAccess, resultType := .pointer (.record 0),
    attrs := defaultAttributes }

/-- Claim C1 counterexample: building a `Method` whose return type is a raw
pointer to a class that declares virtual member functions emits no
diagnostic at all — `is_abi_safe_type` accepts the pointer because
`Type.is_pod()` is true for every pointer type, so the return-type error is
never reported — even though the pointee itself fails the validator (second
conjunct: the pointee class is rejected with the virtual-methods warning). -/
theorem pointer_return_counterexample :
    methodInitChecks hBad mBad 5 = some ("createBad", [])
      ∧ isAbiSafeType hBad (some defaultAttributes) (.record 0) 5
          = some (false, [.mk .warning none "virtual methods are not ABI safe" []]) := by
  exact ⟨rfl, rfl⟩

/-- Claim C1 (amended): `is_abi_safe_type` accepts every raw-pointer type
(with no diagnostics), because a pointer is POD regardless of its pointee;
consequently `Method.__init__` never reports the return-type error for a
method whose return type is a raw pointer — in particular a raw pointer to a
class with virtual member functions is silently accepted.  The recursive
pointee check applies only to parameter and field types. -/
theorem pointer_return_accepted (h : HierDb) (attrs : Option Attributes) (p : CType)
    (fuel : Nat) :
    isAbiSafeType h attrs (.pointer p) (fuel + 1) = some (true, [])
      ∧ ∀ (c : MethodCursor) (name : String) (msgs : List DiagnosticMessage),
          c.resultType = .pointer p →
          methodInitChecks h c (fuel + 1) = some (name, msgs) →
          "return type is not ABI safe" ∉ errorTexts msgs := by
  have h1 : ∀ (a : Option Attributes),
      isAbiSafeType h a (.pointer p) (fuel + 1) = some (true, []) := by
    intro a
    unfold isAbiSafeType
    by_cases ha : allowsUnsafeAbi a <;> simp [ha, typeIsPod]
  refine ⟨h1 attrs, ?_⟩
  intro c name msgs hres hm
  unfold methodInitChecks at hm
  rw [hres, h1 (some c.attrs)] at hm
  dsimp only at hm
  cases hm
  by_cases h1a : endsWithAbi c.spelling <;>
    by_cases h2a : c.pureVirtual <;>
      by_cases h3a : c.exceptionKind = .basicNoexcept <;>
        by_cases h5a : c.access = .protectedAccess <;>
          simp [h1a, h2a, h3a, h5a]

theorem pointer_return_accepted_witness :
    isAbiSafeType hBad (some defaultAttributes) (.pointer (.record 0)) 5 = some (true, [])
      ∧ "return type is not ABI safe" ∉ errorTexts [] := by
  have h := pointer_return_accepted hBad (some defaultAttributes) (.record 0) 4
  exact ⟨h.1, h.2 mBad "createBad" [] rfl rfl⟩

/-! ## Hierarchy resolution (`extract.py`, class `Hierarchy`)

For claim C4 the resolver itself is embedded: a translation unit is a table
of cursor nodes and a table of types (the front-end oracle), plus the
`_usr2info` map built by the indexing pass.  Cursors and types are
identified by indices into the tables; a failed lookup, like Python
exhausting an index (`IndexError`) or the unbounded recursion, yields
`none`. -/

inductive CursorKind where
  | classDecl
  | structDecl
  | classTemplate
  | templateTypeParameter
  | templateNonTypeParameter
  | cxxBaseSpecifier
  | typeRef
  | templateRef
  | noDeclFound
  | otherKind
deriving DecidableEq, Repr

/-- A cursor node: kind, spelling, USR, its type, the declaration of the
canonical form of its type (`node.type.get_canonical().get_declaration()`),
children in order, the `referenced` cursor (for `TYPE_REF`/`TEMPLATE_REF`),
and `clang_getSpecializedCursorTemplate`. -/
structure NodeData where
  kind : CursorKind
  spelling : String
  usr : String
  typeId : Nat
  canonicalDeclId : Nat
  children : List Nat
  referenced : Option Nat
  specializedTemplate : Option Nat

/-- A type: spelling, its declaration, and its template arguments
(`clang_Type_getTemplateArgumentAsType` for each index). -/
structure TypeData where
  spelling : String
  declId : Nat
  templateArgs : List Nat

/-- One `_usr2info` entry: the canonical cursor and the list of direct
bases recorded by `_index_declaration`. -/
structure ClassInfo where
  cursorId : Nat
  bases : List Nat

structure TransUnit where
  nodes : List NodeData
  types : List TypeData
  usrInfo : List (String × ClassInfo)

def getNode (tu : TransUnit) (i : Nat) : Option NodeData := tu.nodes.get? i

def getType (tu : TransUnit) (i : Nat) : Option TypeData := tu.types.get? i

def lookupUsr : List (String × ClassInfo) → String → Option ClassInfo
  | [], _ => none
  | (k, v) :: rest, key => if k = key then some v else lookupUsr rest key

/-- Resolve a list of child cursor ids to their nodes. -/
def getNodes (tu : TransUnit) : List Nat → Option (List NodeData)
  | [] => some []
  | i :: rest =>
      match getNode tu i with
      | none => none
      | some nd => (getNodes tu rest).map (nd :: ·)

/-- First index whose parameter has the given spelling (the
`for i in range(len(template_params))` loop: the first textual match wins). -/
def findParamIdx (s : String) : List NodeData → Option Nat
  | [] => none
  | p :: rest =>
      if p.spelling = s then some 0
      else (findParamIdx s rest).map (· + 1)

/-- The last child of the given kind (the source loop keeps overwriting
`base`, so the last `CXX_BASE_SPECIFIER` child wins). -/
def lastOfKind (k : CursorKind) (cs : List NodeData) : Option NodeData :=
  (cs.filter (fun c => c.kind = k)).getLast?

/-- The `base_template_input` construction for a templated base: thread each
base template argument through, substituting `template_input[i]` whenever
the argument's spelling matches any template parameter (the source checks
every parameter, always substituting the same `template_input[i]`). -/
def matchedInputAux (tu : TransUnit) (params : List NodeData) (targs : List Nat) :
    Nat → List Nat → Option (List Nat)
  | _, [] => some []
  | i, tid :: rest =>
      match getType tu tid with
      | none => none
      | some ty =>
          match (if params.any (fun q => q.spelling = ty.spelling)
                 then targs.get? i else some tid) with
          | none => none
          | some m =>
              match matchedInputAux tu params targs (i + 1) rest with
              | none => none
              | some ms => some (m :: ms)

/-- Mirror of `Hierarchy._get_template_base(node, template_input)`.  The
result is doubly optional: the outer `none` is an abnormal outcome (index
out of range, missing table entry, or fuel exhaustion), the inner `none` is
the source returning Python `None`. -/
def getTemplateBase (tu : TransUnit) : Nat → Nat → List Nat → Option (Option Nat)
  | 0, _, _ => none
  | fuel + 1, nid, targs =>
      match getNode tu nid with
      | none => none
      | some nd =>
          if nd.kind = .structDecl ∨ nd.kind = .classDecl then
            match nd.specializedTemplate with
            | some spec =>
                match getType tu nd.typeId with
                | none => none
                | some ty => getTemplateBase tu fuel spec ty.templateArgs
            | none => some (some nid)
          else if nd.kind = .templateRef then
            match nd.referenced with
            | some rid => getTemplateBase tu fuel rid targs
            | none => none
          else if nd.kind = .classTemplate then
            match getNodes tu nd.children with
            | none => none
            | some cs =>
                let params := cs.filter (fun c =>
                  c.kind = .templateTypeParameter ∨ c.kind = .templateNonTypeParameter)
                match lastOfKind .cxxBaseSpecifier cs with
                | none => some none
                | some b =>
                    match findParamIdx b.spelling params with
                    | some i =>
                        match targs.get? i with
                        | none => none
                        | some tid =>
                            match getType tu tid with
                            | none => none
                            | some ty => some (some ty.declId)
                    | none =>
                        match b.children.head? with
                        | none => none
                        | some bcId =>
                            match getNode tu bcId with
                            | none => none
                            | some bc =>
                                if bc.kind = .typeRef then
                                  match bc.referenced with
                                  | some rid => getTemplateBase tu fuel rid []
                                  | none => none
                                else if bc.kind = .templateRef then
                                  match getType tu b.typeId with
                                  | none => none
                                  | some bty =>
                                      match matchedInputAux tu params targs 0
                                          bty.templateArgs with
                                      | none => none
                                      | some inputs =>
                                          match bc.referenced with
                                          | some rid =>
                                              getTemplateBase tu fuel rid inputs
                                          | none => none
                                else some none
          else if nd.kind = .noDeclFound then some none
          else some none

/-- Mirror of `Hierarchy._get_hierarchy(node, out)`: hop to the canonical
declaration while the node is not canonical, append the node, follow a
unique recorded base from `_usr2info`, or else resolve a template base; the
chain ends when neither applies.  (The `verbose` reporting inside the source
only logs and does not affect the returned chain; it is omitted.) -/
def getHierarchyAux (tu : TransUnit) : Nat → Option Nat → List Nat → Option (List Nat)
  | 0, _, _ => none
  | fuel + 1, n, out =>
      match n with
      | none => some out
      | some nid =>
          match getNode tu nid with
          | none => none
          | some nd =>
              if nid ≠ nd.canonicalDeclId then
                getHierarchyAux tu fuel (some nd.canonicalDeclId) out
              else
                match lookupUsr tu.usrInfo nd.usr with
                | some info =>
                    match info.bases with
                    | [b] => getHierarchyAux tu fuel (some b) (out ++ [nid])
                    | _ => some (out ++ [nid])
                | none =>
                    match getTemplateBase tu fuel nid [] with
                    | none => none
                    | some none => some (out ++ [nid])
                    | some (some bid) =>
                        if bid ≠ nid then getHierarchyAux tu fuel (some bid) (out ++ [nid])
                        else some (out ++ [nid])

/-- Mirror of `Hierarchy.get_hierarchy` on a cursor. -/
def getHierarchy (tu : TransUnit) (fuel : Nat) (nid : Nat) : Option (List Nat) :=
  getHierarchyAux tu fuel (some nid) []

/-- Mirror of `Hierarchy.is_interface`: the chain's last element's type
spelling is the root marker `omni::core::IObject_abi`. -/
def isInterfaceCursor (tu : TransUnit) (fuel : Nat) (nid : Nat) : Option Bool :=
  match getHierarchy tu fuel nid with
  | none => none
  | some chain =>
      match chain.getLast? with
      | none => none
      | some lastId =>
          match getNode tu lastId with
          | none => none
          | some nd =>
              match getType tu nd.typeId with
              | none => none
              | some ty => some (ty.spelling = "omni::core::IObject_abi")

end OmniBind

namespace OmniBind

/-- The translation-unit family of claim C4: node 0 is the root marker
`omni::core::IObject_abi` (indexed with no bases), node 1 is a generic
class template whose only base specifier names its single template
parameter `pn`, node 4 is the implicit specialization of that template with
the root marker as its one template argument (not indexed — the indexer
does not see implicit specializations — but linked to the template through
`clang_getSpecializedCursorTemplate`), node 5 is a concrete class indexed
with the specialization as its only base, and node 6 is a concrete class
indexed with the root marker as its only base. -/
def chainScenario (uR uT uW uC uD pn spellC spellW spellD : String) : TransUnit :=
  { nodes :=
      [ { kind := .classDecl, spelling := "IObject_abi", usr := uR, typeId := 0,
          canonicalDeclId := 0, children := [], referenced := none, specializedTemplate := none },
        { kind := .classTemplate, spelling := spellW, usr := uT, typeId := 1,
          canonicalDeclId := 1, children := [2, 3], referenced := none, specializedTemplate := none },
        { kind := .templateTypeParameter, spelling := pn, usr := "", typeId := 1,
          canonicalDeclId := 2, children := [], referenced := none, specializedTemplate := none },
        { kind := .cxxBaseSpecifier, spelling := pn, usr := "", typeId := 1,
          canonicalDeclId := 3, children := [], referenced := none, specializedTemplate := none },
        { kind := .classDecl, spelling := spellW, usr := uW, typeId := 2,
          canonicalDeclId := 4, children := [], referenced := none, specializedTemplate := some 1 },
        { kind := .classDecl, spelling := spellC, usr := uC, typeId := 3,
          canonicalDeclId := 5, children := [], referenced := none, specializedTemplate := none },
        { kind := .classDecl, spelling := spellD, usr := uD, typeId := 4,
          canonicalDeclId := 6, children := [], referenced := none, specializedTemplate := none } ],
    types :=
      [ { spelling := "omni::core::IObject_abi", declId := 0, templateArgs := [] },
        { spelling := spellW, declId := 1, templateArgs := [] },
        { spelling := spellW ++ "<omni::core::IObject_abi>", declId := 4, templateArgs := [0] },
        { spelling := spellC, declId := 5, templateArgs := [] },
        { spelling := spellD, declId := 6, templateArgs := [] } ],
    usrInfo := [ (uC, { cursorId := 5, bases := [4] }),
                 (uR, { cursorId := 0, bases := [] }),
                 (uD, { cursorId := 6, bases := [0] }) ] }

/-- Claim C4: for every class declaration inheriting the root interface
marker through a chain of length 3 — concrete class, templated wrapper
whose base is its one substituted template parameter, root marker
`omni::core::IObject_abi` — `get_hierarchy` resolves the specialization
through `_get_template_base` (substituting the concrete argument for the
matching template parameter) to the chain `[class, wrapper, root]`, whose
root element is the same cursor as for a class inheriting the root marker
directly (`[class, root]`), so `is_interface` returns `True` for both.  The
USR hypotheses say only that the five declarations are distinct symbols and
that the implicit specialization is not in the index. -/
theorem hierarchy_chain3_same_root (uR uT uW uC uD pn spellC spellW spellD : String)
    (h1 : uC ≠ uR) (h2 : uC ≠ uD) (h3 : uR ≠ uD)
    (h4 : uC ≠ uW) (h5 : uR ≠ uW) (h6 : uD ≠ uW) :
    getHierarchy (chainScenario uR uT uW uC uD pn spellC spellW spellD) 10 5 = some [5, 4, 0]
      ∧ getHierarchy (chainScenario uR uT uW uC uD pn spellC spellW spellD) 10 6 = some [6, 0]
      ∧ isInterfaceCursor (chainScenario uR uT uW uC uD pn spellC spellW spellD) 10 5 = some true
      ∧ isInterfaceCursor (chainScenario uR uT uW uC uD pn spellC spellW spellD) 10 6 = some true := by
  refine ⟨?_, ?_, ?_, ?_⟩ <;>
    simp [chainScenario, getHierarchy, getHierarchyAux, getTemplateBase, getNode, getType,
      lookupUsr, getNodes, findParamIdx, lastOfKind, isInterfaceCursor, h1, h2, h3, h4, h5, h6]

theorem hierarchy_chain3_same_root_witness :
    getHierarchy (chainScenario "c@R" "c@T" "c@W" "c@C" "c@D" "T" "C" "Wrapper" "D") 10 5
        = some [5, 4, 0]
      ∧ getHierarchy (chainScenario "c@R" "c@T" "c@W" "c@C" "c@D" "T" "C" "Wrapper" "D") 10 6
        = some [6, 0]
      ∧ isInterfaceCursor (chainScenario "c@R" "c@T" "c@W" "c@C" "c@D" "T" "C" "Wrapper" "D") 10 5
        = some true
      ∧ isInterfaceCursor (chainScenario "c@R" "c@T" "c@W" "c@C" "c@D" "T" "C" "Wrapper" "D") 10 6
        = some true :=
  hierarchy_chain3_same_root "c@R" "c@T" "c@W" "c@C" "c@D" "T" "C" "Wrapper" "D"
    (by decide) (by decide) (by decide) (by decide) (by decide) (by decide)

end OmniBind

namespace OmniBind

/-! ## Code generator commit and CLI driver (`generate/__init__.py`, `cli.py`)

The file system is modelled as a map from path to content; modification
times are not modelled, so the `touch` of an up-to-date output (which only
updates its mtime) is the identity on contents, which is all the claims
speak about. -/

def lookupStr : List (String × String) → String → Option String
  | [], _ => none
  | (k, v) :: rest, key => if k = key then some v else lookupStr rest key

def setStr : List (String × String) → String → String → List (String × String)
  | [], key, v => [(key, v)]
  | (k, w) :: rest, key, v =>
      if k = key then (key, v) :: rest else (k, w) :: setStr rest key v

def removeStr : List (String × String) → String → List (String × String)
  | [], _ => []
  | (k, w) :: rest, key =>
      if k = key then removeStr rest key else (k, w) :: removeStr rest key

structure FS where
  files : List (String × String)

def FS.get (fs : FS) (p : String) : Option String := lookupStr fs.files p

def FS.set (fs : FS) (p c : String) : FS := ⟨setStr fs.files p c⟩

def FS.remove (fs : FS) (p : String) : FS := ⟨removeStr fs.files p⟩

/-- Python `readlines` of a file's text, up to the trailing-newline
convention: two files have equal `readlines` lists exactly when their texts
are equal, and the first-line test below is unaffected, so comparing these
line lists mirrors `difflib`'s empty-diff condition. -/
def pyLines (s : String) : List (List Char) := splitChar '\n' s.toList

/-- `lines[0].startswith("// Copyright")`. -/
def startsWithCopyright (l : List Char) : Bool :=
  l.take 12 = "// Copyright".toList

/-- The `read_lines` helper of `compare_files`: drop the first line when it
is the copyright comment. -/
def strippedLines (s : String) : List (List Char) :=
  match pyLines s with
  | l :: rest => if startsWithCopyright l then rest else l :: rest
  | [] => []

/-- Mirror of `compare_files(current, generated).are_same`: the context diff
is empty exactly when the copyright-stripped line lists coincide. -/
def compareSame (oldContent newContent : String) : Bool :=
  strippedLines oldContent = strippedLines newContent

/-- Outcome of `CodeGenerator._commit`: normal return, or an uncaught
exception escaping it (with the file system and the messages emitted up to
that point). -/
inductive CommitOutcome where
  | finished (fs : FS) (msgs : List DiagnosticMessage)
  | raised (exc : String) (fs : FS) (msgs : List DiagnosticMessage)

/-- The condition of the skip branch of `_commit`:
`self._skip_write_if_same and os.path.exists(self._out_filename) and
compare().are_same`. -/
def commitDecision (fs1 : FS) (outName tmpContent : String) (skip : Bool) : Bool :=
  skip && (fs1.get outName).isSome
    && (match fs1.get outName with
        | some oldContent => compareSame oldContent tmpContent
        | none => false)

/-- Mirror of `CodeGenerator._commit` for a file target (message texts
abbreviated; no `--format-module`, which invokes the out-of-scope external
formatter).  The rendered `body` has the final `"\n"` of `_commit`
appended and sits in the temporary file `out + ".~nv"` the constructor
opened.  If `skip_write_if_same` is set, the destination exists and the
comparison (ignoring a leading copyright line) finds no difference, the
destination is touched (mtime only) and the temp file removed.  Otherwise a
`note` is reported and — when `fail_on_write` is set — the temp file is
removed and the error reported, after which the unconditional
`shutil.move(tmp, out)` finds its source missing and raises
`FileNotFoundError`, leaving the destination untouched; without
`fail_on_write` the move replaces the destination. -/
def commit (fs : FS) (outName body : String) (skip failOnWrite : Bool) : CommitOutcome :=
  let tmpName := outName ++ ".~nv"
  let tmpContent := body ++ "\n"
  let fs1 := fs.set tmpName tmpContent
  if commitDecision fs1 outName tmpContent skip then
    .finished (fs1.remove tmpName) [.mk .verbose none "skipped writing" []]
  else
    if failOnWrite then
      .raised "FileNotFoundError" (fs1.remove tmpName)
        [.mk .note none "Generated" [],
         .mk .error none "A code change was detected but --fail-on-write was used" []]
    else
      .finished ((fs1.remove tmpName).set outName tmpContent)
        [.mk .note none "Generated" []]

/-- Modelled from the spec: `generate/cpp.py` (`CppGenerator`, `PyGenerator`)
is missing from the source tree — only its caller `cli.py` and the base
class `CodeGenerator` are present.  Per spec section 5 ("Cancellation is
all-or-nothing: any validation failure that crosses the configured error
threshold aborts ... either all requested outputs are written (or left
untouched if already up to date) or none are") and section 7 ("any error or
worse yields a non-zero exit and no output files are replaced"), the
generator validates the reporter before writing: with the reporter past the
error threshold it raises the `DiagnosticException` of `validate()` instead
of committing; otherwise it renders and commits through the real
`CodeGenerator._commit`. -/
def specGenerate (st : ReporterState) (fs : FS) (outName body : String)
    (skip failOnWrite : Bool) : Except String CommitOutcome :=
  if reporterValid .error st then .ok (commit fs outName body skip failOnWrite)
  else .error "DiagnosticException"

/-- Result of one CLI run: exit code, final file system, final top-level
reporter state. -/
structure RunResult where
  exitCode : Nat
  fs : FS
  st : ReporterState

/-- `cli.main`: log level `NOTE`, or `VERBOSE` with `-v`. -/
def logLevelOf (verbose : Bool) : DiagnosticLevel :=
  if verbose then .verbose else .note

/-- One generator invocation as `cli.main` performs it: skipped when no
output path was requested; a `DiagnosticException` has already been
reported, so `cli.main` returns 1 (`except DiagnosticException`); an
exception escaping `_commit` reaches `except Exception`, which reports it
as one fatal diagnostic and returns 1. -/
inductive GenStep where
  | continueRun (st : ReporterState) (fs : FS)
  | errorExit (r : RunResult)

def genStep (st : ReporterState) (fs : FS) (lg : DiagnosticLevel)
    (out : Option (String × String)) (skip failOnWrite : Bool) : GenStep :=
  match out with
  | none => .continueRun st fs
  | some (p, body) =>
      match specGenerate st fs p body skip failOnWrite with
      | .error _ => .errorExit { exitCode := 1, fs := fs, st := st }
      | .ok (.finished fs2 msgs) => .continueRun (emitAll lg st msgs) fs2
      | .ok (.raised exc fs2 msgs) =>
          .errorExit { exitCode := 1, fs := fs2,
                       st := emitAll lg (emitAll lg st msgs) [.mk .fatal none exc []] }

/-- Mirror of the `cli.main` pipeline after argument parsing, for a run that
reaches the translation-unit parse (the mtime-based `is_output_up_to_date`
early exit belongs to the out-of-scope staleness driver, spec section 1):
create the api output as an empty file when missing (so the input header can
include it), report the clang diagnostics, run indexing/extraction (its
reported messages and whether a `DiagnosticException` escaped — as from a
parameter-validation scope — are oracle inputs), then generate the api and
py outputs in turn, then write the dependency manifest unconditionally
(`write_includes`, called whenever `-M` was given), and finally return
`0 if reporter.valid else 1`. -/
def mainTail (lg : DiagnosticLevel) (st2 : ReporterState) (fs1 : FS)
    (apiOut pyOut mOut : Option (String × String)) (skip failOnWrite : Bool) : RunResult :=
  match genStep st2 fs1 lg apiOut skip failOnWrite with
  | .errorExit r => r
  | .continueRun st3 fs2 =>
      match genStep st3 fs2 lg pyOut skip failOnWrite with
      | .errorExit r => r
      | .continueRun st4 fs3 =>
          let fs4 := match mOut with
            | some pc => fs3.set pc.1 pc.2
            | none => fs3
          { exitCode := if reporterValid .error st4 then 0 else 1, fs := fs4, st := st4 }

/-- The `api` output is created empty when missing, because the input header
usually includes it and the parse would fail otherwise. -/
def apiPrepared (fs0 : FS) (apiOut : Option (String × String)) : FS :=
  match apiOut with
  | some pb => if (fs0.get pb.1).isSome then fs0 else fs0.set pb.1 ""
  | none => fs0

def mainRun (verbose : Bool) (clangDiags buildMsgs : List DiagnosticMessage)
    (buildRaises : Bool) (fs0 : FS) (apiOut pyOut mOut : Option (String × String))
    (skip failOnWrite : Bool) : RunResult :=
  let lg := logLevelOf verbose
  let st2 := emitAll lg (emitAll lg initReporter clangDiags) buildMsgs
  if buildRaises then
    { exitCode := 1, fs := apiPrepared fs0 apiOut, st := st2 }
  else
    mainTail lg st2 (apiPrepared fs0 apiOut) apiOut pyOut mOut skip failOnWrite

end OmniBind

namespace OmniBind

theorem lookupStr_set_self (l : List (String × String)) (k v : String) :
    lookupStr (setStr l k v) k = some v := by
  induction l with
  | nil => simp [setStr, lookupStr]
  | cons kv rest ih =>
      obtain ⟨k0, v0⟩ := kv
      by_cases hk : k0 = k <;> simp [setStr, lookupStr, hk, ih]

theorem lookupStr_set_ne (l : List (String × String)) (k v p : String) (hp : p ≠ k) :
    lookupStr (setStr l k v) p = lookupStr l p := by
  have hkp : k ≠ p := fun h => hp h.symm
  induction l with
  | nil => simp [setStr, lookupStr, hkp]
  | cons kv rest ih =>
      obtain ⟨k0, v0⟩ := kv
      by_cases hk : k0 = k
      · subst hk
        simp [setStr, lookupStr, hkp]
      · simp [setStr, lookupStr, hk, ih]

theorem lookupStr_remove_ne (l : List (String × String)) (k p : String) (hp : p ≠ k) :
    lookupStr (removeStr l k) p = lookupStr l p := by
  have hkp : k ≠ p := fun h => hp h.symm
  induction l with
  | nil => simp [removeStr]
  | cons kv rest ih =>
      obtain ⟨k0, v0⟩ := kv
      by_cases hk : k0 = k
      · subst hk
        simp [removeStr, lookupStr, hkp, ih]
      · simp [removeStr, lookupStr, hk, ih]

theorem FS.get_set_self (fs : FS) (k v : String) : (fs.set k v).get k = some v :=
  lookupStr_set_self fs.files k v

theorem FS.get_set_ne (fs : FS) (k v p : String) (hp : p ≠ k) :
    (fs.set k v).get p = fs.get p :=
  lookupStr_set_ne fs.files k v p hp

theorem FS.get_remove_ne (fs : FS) (k p : String) (hp : p ≠ k) :
    (fs.remove k).get p = fs.get p :=
  lookupStr_remove_ne fs.files k p hp

theorem ne_append_tmp (p : String) : p ≠ p ++ ".~nv" := by
  intro h
  have h2 := congrArg (fun s => s.toList.length) h
  simp only at h2
  rw [show (p ++ ".~nv").toList = p.toList ++ ".~nv".toList from rfl] at h2
  rw [List.length_append] at h2
  have : (".~nv" : String).toList.length = 4 := rfl
  omega

theorem emitMessage_worst_mono (lg : DiagnosticLevel) (st : ReporterState)
    (m : DiagnosticMessage) :
    st.worst.toNat ≤ (emitMessage lg st m).1.worst.toNat := by
  unfold emitMessage
  by_cases hc : m.level.toNat < lg.toNat
  · simp [hc]
  · simp only [hc, if_false]
    split <;> omega

theorem emitAll_worst_mono (lg : DiagnosticLevel) (msgs : List DiagnosticMessage) :
    ∀ st : ReporterState, st.worst.toNat ≤ (emitAll lg st msgs).worst.toNat := by
  induction msgs with
  | nil => intro st; simp [emitAll]
  | cons m rest ih =>
      intro st
      have h1 := emitMessage_worst_mono lg st m
      have h2 := ih (emitMessage lg st m).1
      simp only [emitAll, List.foldl_cons] at h2 ⊢
      omega

theorem emitAll_mem_worst (lg : DiagnosticLevel) (msgs : List DiagnosticMessage)
    (m : DiagnosticMessage) (hm : m ∈ msgs) (hlg : lg.toNat ≤ m.level.toNat) :
    ∀ st : ReporterState, m.level.toNat ≤ (emitAll lg st msgs).worst.toNat := by
  induction msgs with
  | nil => cases hm
  | cons a rest ih =>
      intro st
      rcases List.mem_cons.mp hm with hma | hma
      · subst hma
        have hacc : m.level.toNat ≤ (emitMessage lg st m).1.worst.toNat := by
          unfold emitMessage
          rw [if_neg (by omega)]
          simp only
          split <;> omega
        have h2 := emitAll_worst_mono lg rest (emitMessage lg st m).1
        simp only [emitAll, List.foldl_cons] at h2 ⊢
        omega
      · have := ih hma (emitMessage lg st a).1
        simpa [emitAll, List.foldl_cons] using this

theorem emitAll_worst_le (lg : DiagnosticLevel) (msgs : List DiagnosticMessage)
    (bound : Nat) (hb : ∀ m ∈ msgs, m.level.toNat ≤ bound) :
    ∀ st : ReporterState, (emitAll lg st msgs).worst.toNat ≤ max st.worst.toNat bound := by
  induction msgs with
  | nil => intro st; simp [emitAll]
  | cons a rest ih =>
      intro st
      have ha := hb a (by simp)
      have hstep : (emitMessage lg st a).1.worst.toNat ≤ max st.worst.toNat bound := by
        unfold emitMessage
        by_cases hc : a.level.toNat < lg.toNat
        · simp [hc]
        · simp only [hc, if_false]
          split <;> omega
      have h2 := ih (fun m hm => hb m (by simp [hm])) (emitMessage lg st a).1
      simp only [emitAll, List.foldl_cons] at h2 ⊢
      omega

end OmniBind

namespace OmniBind

theorem commit_finished_frame (fs : FS) (o b : String) (skip fail : Bool)
    (fs2 : FS) (msgs : List DiagnosticMessage)
    (h : commit fs o b skip fail = .finished fs2 msgs) :
    (∀ p : String, p ≠ o → p ≠ o ++ ".~nv" → fs2.get p = fs.get p)
      ∧ (∀ m ∈ msgs, m.level.toNat ≤ DiagnosticLevel.note.toNat) := by
  simp only [commit] at h
  by_cases hc : commitDecision (fs.set (o ++ ".~nv") (b ++ "\n")) o (b ++ "\n") skip
  · rw [if_pos hc] at h
    cases h
    refine ⟨fun p hpo hpt => ?_, fun m hm => ?_⟩
    · rw [FS.get_remove_ne _ _ _ hpt, FS.get_set_ne _ _ _ _ hpt]
    · simp at hm
      subst hm
      decide
  · rw [if_neg hc] at h
    by_cases hf : fail
    · rw [if_pos hf] at h
      cases h
    · rw [if_neg hf] at h
      cases h
      refine ⟨fun p hpo hpt => ?_, fun m hm => ?_⟩
      · rw [FS.get_set_ne _ _ _ _ hpo, FS.get_remove_ne _ _ _ hpt,
          FS.get_set_ne _ _ _ _ hpt]
      · simp at hm
        subst hm
        decide

theorem commit_finished_fail_frame (fs : FS) (o b : String) (skip : Bool)
    (fs2 : FS) (msgs : List DiagnosticMessage)
    (h : commit fs o b skip true = .finished fs2 msgs) :
    ∀ p : String, p ≠ o ++ ".~nv" → fs2.get p = fs.get p := by
  simp only [commit] at h
  by_cases hc : commitDecision (fs.set (o ++ ".~nv") (b ++ "\n")) o (b ++ "\n") skip
  · rw [if_pos hc] at h
    cases h
    intro p hpt
    rw [FS.get_remove_ne _ _ _ hpt, FS.get_set_ne _ _ _ _ hpt]
  · rw [if_neg hc] at h
    simp only [if_true] at h
    cases h

theorem commit_raised_frame (fs : FS) (o b : String) (skip fail : Bool) (e : String)
    (fs2 : FS) (msgs : List DiagnosticMessage)
    (h : commit fs o b skip fail = .raised e fs2 msgs) :
    ∀ p : String, p ≠ o ++ ".~nv" → fs2.get p = fs.get p := by
  simp only [commit] at h
  by_cases hc : commitDecision (fs.set (o ++ ".~nv") (b ++ "\n")) o (b ++ "\n") skip
  · rw [if_pos hc] at h
    cases h
  · rw [if_neg hc] at h
    by_cases hf : fail
    · rw [if_pos hf] at h
      cases h
      intro p hpt
      rw [FS.get_remove_ne _ _ _ hpt, FS.get_set_ne _ _ _ _ hpt]
    · rw [if_neg hf] at h
      cases h

theorem commit_raised_fail (fs : FS) (o b : String) (skip fail : Bool) (e : String)
    (fs2 : FS) (msgs : List DiagnosticMessage)
    (h : commit fs o b skip fail = .raised e fs2 msgs) : fail = true := by
  simp only [commit] at h
  by_cases hc : commitDecision (fs.set (o ++ ".~nv") (b ++ "\n")) o (b ++ "\n") skip
  · rw [if_pos hc] at h
    cases h
  · rw [if_neg hc] at h
    by_cases hf : fail
    · exact hf
    · rw [if_neg hf] at h
      cases h

theorem apiPrepared_get (fs0 : FS) (apiOut : Option (String × String)) (p c : String)
    (hpc : fs0.get p = some c) : (apiPrepared fs0 apiOut).get p = some c := by
  rcases apiOut with _ | ⟨a, b⟩
  · exact hpc
  · unfold apiPrepared
    dsimp only
    by_cases hex : (fs0.get a).isSome
    · rw [if_pos hex]
      exact hpc
    · rw [if_neg hex]
      have hpa : p ≠ a := by
        intro hpa
        subst hpa
        rw [hpc] at hex
        simp at hex
      rw [FS.get_set_ne _ _ _ _ hpa]
      exact hpc

theorem genStep_continueRun_spec (lg : DiagnosticLevel) (st : ReporterState) (fs : FS)
    (out : Option (String × String)) (skip fail : Bool) (st2 : ReporterState) (fs2 : FS)
    (h : genStep st fs lg out skip fail = .continueRun st2 fs2) :
    st.worst.toNat ≤ st2.worst.toNat
      ∧ st2.worst.toNat ≤ max st.worst.toNat DiagnosticLevel.note.toNat
      ∧ (st.worst = worstOf st.diagnostics → st2.worst = worstOf st2.diagnostics)
      ∧ (out = none → st2 = st ∧ fs2 = fs)
      ∧ (∀ q b, out = some (q, b) →
          ∀ p : String, p ≠ q → p ≠ q ++ ".~nv" → fs2.get p = fs.get p)
      ∧ (fail = true → ∀ q b, out = some (q, b) →
          ∀ p : String, p ≠ q ++ ".~nv" → fs2.get p = fs.get p)
      ∧ (∀ q b, out = some (q, b) → reporterValid .error st = true) := by
  rcases out with _ | ⟨q0, b0⟩
  · unfold genStep at h
    cases h
    refine ⟨Nat.le_refl _, Nat.le_max_left _ _, fun hi => hi, fun _ => ⟨rfl, rfl⟩, ?_, ?_, ?_⟩
    · intro q b hq
      cases hq
    · intro _ q b hq
      cases hq
    · intro q b hq
      cases hq
  · unfold genStep specGenerate at h
    dsimp only at h
    by_cases hvalid : reporterValid .error st
    · rw [if_pos hvalid] at h
      cases hcommit : commit fs q0 b0 skip fail with
      | finished fs3 msgs =>
          rw [hcommit] at h
          dsimp only at h
          cases h
          obtain ⟨hframe, hlev⟩ := commit_finished_frame _ _ _ _ _ _ _ hcommit
          refine ⟨emitAll_worst_mono _ _ _, ?_, ?_, ?_, ?_, ?_, fun q b hq => hvalid⟩
          · exact emitAll_worst_le lg _ _ hlev st
          · intro hi
            exact emitAll_worst_inv lg _ st hi
          · intro hn
            cases hn
          · intro q b hq p hpq hpt
            cases hq
            exact hframe p hpq hpt
          · intro hfail q b hq p hpt
            cases hq
            subst hfail
            exact commit_finished_fail_frame _ _ _ _ _ _ hcommit p hpt
      | raised e fs3 msgs =>
          rw [hcommit] at h
          dsimp only at h
          cases h
    · rw [if_neg hvalid] at h
      dsimp only at h
      cases h

theorem genStep_errorExit_spec (lg : DiagnosticLevel) (st : ReporterState) (fs : FS)
    (out : Option (String × String)) (skip fail : Bool) (r : RunResult)
    (h : genStep st fs lg out skip fail = .errorExit r) :
    r.exitCode = 1
      ∧ DiagnosticLevel.error.toNat ≤ r.st.worst.toNat
      ∧ (st.worst = worstOf st.diagnostics → r.st.worst = worstOf r.st.diagnostics)
      ∧ (∀ p : String, (∀ q b, out = some (q, b) → p ≠ q ++ ".~nv") →
          r.fs.get p = fs.get p)
      ∧ (reporterValid .error st = true → fail = true) := by
  rcases out with _ | ⟨q0, b0⟩
  · unfold genStep at h
    cases h
  · unfold genStep specGenerate at h
    dsimp only at h
    by_cases hvalid : reporterValid .error st
    · rw [if_pos hvalid] at h
      cases hcommit : commit fs q0 b0 skip fail with
      | finished fs3 msgs =>
          rw [hcommit] at h
          dsimp only at h
          cases h
      | raised e fs3 msgs =>
          rw [hcommit] at h
          dsimp only at h
          cases h
          have hmem : (DiagnosticMessage.mk .fatal none e []).level.toNat
              ≤ (emitAll lg (emitAll lg st msgs) [.mk .fatal none e []]).worst.toNat := by
            refine emitAll_mem_worst lg _ _ (by simp) ?_ _
            cases lg <;> simp [DiagnosticLevel.toNat]
          refine ⟨rfl, ?_, ?_, ?_, fun _ => commit_raised_fail _ _ _ _ _ _ _ _ hcommit⟩
          · simp only [DiagnosticMessage.level_mk, DiagnosticLevel.toNat] at hmem ⊢
            omega
          · intro hi
            exact emitAll_worst_inv lg _ _ (emitAll_worst_inv lg _ _ hi)
          · intro p hp
            exact commit_raised_frame _ _ _ _ _ _ _ _ hcommit p (hp q0 b0 rfl)
    · rw [if_neg hvalid] at h
      dsimp only at h
      cases h
      refine ⟨rfl, ?_, fun hi => hi, fun p hp => rfl, fun hv => absurd hv hvalid⟩
      simp only [reporterValid, Bool.not_eq_true, decide_eq_true_eq] at hvalid
      dsimp only
      omega

end OmniBind

namespace OmniBind

/-- Specification of the post-parse pipeline `mainTail` for an arbitrary
starting reporter state satisfying the worst-level invariant: past the error
threshold the run exits 1 and the api/py destinations and the manifest (when
some generator output was requested at all) are untouched relative to the
file system entering the pipeline; at warning or below the run exits 0. -/
theorem mainTail_spec (lg : DiagnosticLevel) (st2 : ReporterState) (fs1 : FS)
    (apiOut pyOut mOut : Option (String × String)) (skip failOnWrite : Bool)
    (r : RunResult) (hr : r = mainTail lg st2 fs1 apiOut pyOut mOut skip failOnWrite)
    (hinv2 : st2.worst = worstOf st2.diagnostics) :
    (DiagnosticLevel.error.toNat ≤ (worstOf r.st.diagnostics).toNat →
      r.exitCode = 1
        ∧ ∀ p : String,
            ((∃ b, apiOut = some (p, b)) ∨ (∃ b, pyOut = some (p, b))
              ∨ ((∃ ct, mOut = some (p, ct))
                  ∧ (apiOut.isSome = true ∨ pyOut.isSome = true))) →
            (∀ q b, apiOut = some (q, b) ∨ pyOut = some (q, b) → p ≠ q ++ ".~nv") →
            r.fs.get p = fs1.get p)
    ∧ ((worstOf r.st.diagnostics).toNat ≤ DiagnosticLevel.warning.toNat →
        r.exitCode = 0) := by
  have he4 : DiagnosticLevel.error.toNat = 4 := rfl
  have hw3 : DiagnosticLevel.warning.toNat = 3 := rfl
  have hn2 : DiagnosticLevel.note.toNat = 2 := rfl
  subst hr
  unfold mainTail
  cases hapi : genStep st2 fs1 lg apiOut skip failOnWrite with
  | errorExit r0 =>
      obtain ⟨hexit, hworst, hinvt, hframe, hflv⟩ :=
        genStep_errorExit_spec lg st2 fs1 apiOut skip failOnWrite r0 hapi
      dsimp only
      constructor
      · intro herr
        refine ⟨hexit, ?_⟩
        intro p hdest halias
        exact hframe p (fun q b hq => halias q b (Or.inl hq))
      · intro hwarn
        exfalso
        rw [← hinvt hinv2, hw3] at hwarn
        rw [he4] at hworst
        omega
  | continueRun st3 fs2 =>
      obtain ⟨hmono1, hle1, hinvt1, hnone1, hgen1, hfail1, hvalid1⟩ :=
        genStep_continueRun_spec lg st2 fs1 apiOut skip failOnWrite st3 fs2 hapi
      have hinv3 : st3.worst = worstOf st3.diagnostics := hinvt1 hinv2
      rw [hn2] at hle1
      dsimp only
      cases hpy : genStep st3 fs2 lg pyOut skip failOnWrite with
      | errorExit r0 =>
          obtain ⟨hexit2, hworst2, hinvt2, hframe2, hflv2⟩ :=
            genStep_errorExit_spec lg st3 fs2 pyOut skip failOnWrite r0 hpy
          dsimp only
          constructor
          · intro herr
            refine ⟨hexit2, ?_⟩
            intro p hdest halias
            rw [hframe2 p (fun q b hq => halias q b (Or.inr hq))]
            rcases apiOut with _ | ⟨a, b⟩
            · rw [(hnone1 rfl).2]
            · have hst2v : reporterValid .error st2 = true := hvalid1 a b rfl
              have hst3v : reporterValid .error st3 = true := by
                simp only [reporterValid, decide_eq_true_eq] at hst2v ⊢
                rw [he4] at hst2v ⊢
                omega
              have hfl : failOnWrite = true := hflv2 hst3v
              rw [hfail1 hfl a b rfl p (halias a b (Or.inl rfl))]
          · intro hwarn
            exfalso
            rw [← hinvt2 hinv3, hw3] at hwarn
            rw [he4] at hworst2
            omega
      | continueRun st4 fs3 =>
          obtain ⟨hmono2, hle2, hinvt2, hnone2, hgen2, hfail2, hvalid2⟩ :=
            genStep_continueRun_spec lg st3 fs2 pyOut skip failOnWrite st4 fs3 hpy
          have hinv4 : st4.worst = worstOf st4.diagnostics := hinvt2 hinv3
          rw [hn2] at hle2
          dsimp only
          constructor
          · intro herr
            rw [← hinv4, he4] at herr
            constructor
            · have hnv : ¬ reporterValid .error st4 = true := by
                simp only [reporterValid, decide_eq_true_eq]
                rw [he4]
                omega
              rw [if_neg hnv]
            · intro p hdest halias
              exfalso
              rcases hdest with ⟨b, hb⟩ | ⟨b, hb⟩ | ⟨⟨ct, hct⟩, hs | hs⟩
              · have hv2 := hvalid1 p b hb
                simp only [reporterValid, decide_eq_true_eq] at hv2
                rw [he4] at hv2
                omega
              · have hv3 := hvalid2 p b hb
                simp only [reporterValid, decide_eq_true_eq] at hv3
                rw [he4] at hv3
                omega
              · rcases apiOut with _ | ⟨a, b⟩
                · simp at hs
                · have hv2 := hvalid1 a b rfl
                  simp only [reporterValid, decide_eq_true_eq] at hv2
                  rw [he4] at hv2
                  omega
              · rcases pyOut with _ | ⟨a, b⟩
                · simp at hs
                · have hv3 := hvalid2 a b rfl
                  simp only [reporterValid, decide_eq_true_eq] at hv3
                  rw [he4] at hv3
                  omega
          · intro hwarn
            rw [← hinv4, hw3] at hwarn
            have hv : reporterValid .error st4 = true := by
              simp only [reporterValid, decide_eq_true_eq]
              rw [he4]
              omega
            rw [if_pos hv]

end OmniBind

namespace OmniBind

/-- Concrete manifest-only run refuting the frame part of claim C2: the clang
phase reports one error, no api or py output is requested, a dependency
manifest is (`-M deps.d`), and `deps.d` already holds an old manifest. -/
def manifestErrorRun : RunResult :=
  mainRun false [.mk .error none "parse failed" []] [] false
    { files := [("deps.d", "old manifest")] } none none (some ("deps.d", "new manifest"))
    false false

/-- C2 counterexample: in a run whose only requested output is the dependency
manifest, an error-level clang diagnostic yields exit code 1, yet the
pre-existing manifest file is still replaced, because `cli.main` calls
`write_includes` unconditionally whenever `-M` was given, after the
generator loop and regardless of reporter validity. -/
theorem manifest_rewrite_counterexample :
    DiagnosticLevel.error.toNat ≤ (worstOf manifestErrorRun.st.diagnostics).toNat
      ∧ manifestErrorRun.exitCode = 1
      ∧ FS.get { files := [("deps.d", "old manifest")] } "deps.d" = some "old manifest"
      ∧ manifestErrorRun.fs.get "deps.d" = some "new manifest" := by
  refine ⟨by decide, rfl, rfl, rfl⟩

/-- C2 (amended): for every CLI run (build-phase `DiagnosticException`
escapes only alongside an error-level message), if a diagnostic at level
error or worse is recorded, the exit code is 1 and every pre-existing api or
py destination — and the manifest, provided at least one api/py output was
also requested — keeps its content (destinations not aliasing a `.~nv`
temporary); a manifest-only run rewrites the manifest even on error.  If
the worst recorded level is warning or below, the exit code is 0. -/
theorem cli_error_exit_and_frame (verbose buildRaises : Bool)
    (clangDiags buildMsgs : List DiagnosticMessage) (fs0 : FS)
    (apiOut pyOut mOut : Option (String × String)) (skip failOnWrite : Bool)
    (r : RunResult)
    (hr : r = mainRun verbose clangDiags buildMsgs buildRaises fs0 apiOut pyOut mOut
        skip failOnWrite)
    (hRaise : buildRaises = true →
      ∃ m ∈ buildMsgs, DiagnosticLevel.error.toNat ≤ m.level.toNat) :
    (DiagnosticLevel.error.toNat ≤ (worstOf r.st.diagnostics).toNat →
      r.exitCode = 1
        ∧ ∀ p c, fs0.get p = some c →
            ((∃ b, apiOut = some (p, b)) ∨ (∃ b, pyOut = some (p, b))
              ∨ ((∃ ct, mOut = some (p, ct))
                  ∧ (apiOut.isSome = true ∨ pyOut.isSome = true))) →
            (∀ q b, apiOut = some (q, b) ∨ pyOut = some (q, b) → p ≠ q ++ ".~nv") →
            r.fs.get p = some c)
    ∧ ((worstOf r.st.diagnostics).toNat ≤ DiagnosticLevel.warning.toNat →
        r.exitCode = 0) := by
  have he4 : DiagnosticLevel.error.toNat = 4 := rfl
  have hw3 : DiagnosticLevel.warning.toNat = 3 := rfl
  subst hr
  simp only [mainRun]
  by_cases hbr : buildRaises = true
  · rw [if_pos hbr]
    refine ⟨fun herr => ⟨rfl, ?_⟩, fun hwarn => ?_⟩
    · intro p c hpc hdest halias
      exact apiPrepared_get fs0 apiOut p c hpc
    · exfalso
      obtain ⟨m, hm, hml⟩ := hRaise hbr
      rw [he4] at hml
      have hlgm : (logLevelOf verbose).toNat ≤ m.level.toNat := by
        have h2 : (logLevelOf verbose).toNat ≤ 2 := by
          cases verbose <;> decide
        omega
      have hmem := emitAll_mem_worst (logLevelOf verbose) buildMsgs m hm hlgm
          (emitAll (logLevelOf verbose) initReporter clangDiags)
      have hinv2 := emitAll_worst_inv (logLevelOf verbose) buildMsgs _
          (emitAll_worst_inv (logLevelOf verbose) clangDiags initReporter
            initReporter_worst_inv)
      rw [hw3] at hwarn
      dsimp only at hwarn
      rw [← hinv2] at hwarn
      omega
  · rw [if_neg hbr]
    have hinv2 := emitAll_worst_inv (logLevelOf verbose) buildMsgs _
        (emitAll_worst_inv (logLevelOf verbose) clangDiags initReporter
          initReporter_worst_inv)
    obtain ⟨hA, hB⟩ := mainTail_spec (logLevelOf verbose) _ (apiPrepared fs0 apiOut)
        apiOut pyOut mOut skip failOnWrite _ rfl hinv2
    refine ⟨fun herr => ?_, hB⟩
    obtain ⟨hexit, hframe⟩ := hA herr
    refine ⟨hexit, ?_⟩
    intro p c hpc hdest halias
    rw [hframe p hdest halias]
    exact apiPrepared_get fs0 apiOut p c hpc

/-- C2 witness: the amended theorem applied to the concrete manifest-only
error run gives exit code 1. -/
theorem cli_error_exit_and_frame_witness : manifestErrorRun.exitCode = 1 := by
  have h := cli_error_exit_and_frame false false
      [.mk .error none "parse failed" []] [] { files := [("deps.d", "old manifest")] }
      none none (some ("deps.d", "new manifest")) false false manifestErrorRun rfl
      (fun hbr => by cases hbr)
  exact (h.1 (by decide)).1

end OmniBind

namespace OmniBind

/-- With `fail_on_write` set and a destination whose stored content differs
from the rendered content (after the copyright-agnostic comparison),
`_commit` takes the failure branch: it removes the temporary, reports the
error, and the unconditional `shutil.move` then raises `FileNotFoundError`
with the destination untouched. -/
theorem commit_fail_raises (fs : FS) (o b : String) (skip : Bool) (c : String)
    (hpc : fs.get o = some c) (hdiff : compareSame c (b ++ "\n") = false) :
    commit fs o b skip true
      = .raised "FileNotFoundError" ((fs.set (o ++ ".~nv") (b ++ "\n")).remove (o ++ ".~nv"))
          [.mk .note none "Generated" [],
           .mk .error none "A code change was detected but --fail-on-write was used" []] := by
  have hget : (fs.set (o ++ ".~nv") (b ++ "\n")).get o = some c := by
    rw [FS.get_set_ne _ _ _ _ (ne_append_tmp o)]
    exact hpc
  have hdec : commitDecision (fs.set (o ++ ".~nv") (b ++ "\n")) o (b ++ "\n") skip = false := by
    unfold commitDecision
    rw [hget]
    simp [hdiff]
  simp only [commit]
  rw [hdec, if_neg (by decide : ¬ (false = true)), if_pos trivial]

/-- C7: a CLI run with `--fail-on-write` whose rendered api output differs
from the existing destination (ignoring a leading copyright-comment line)
exits with code 1 and leaves the destination content exactly as it was,
whatever the other requested outputs, the build-phase outcome, and the
`skip_write_if_same` setting. -/
theorem fail_on_write_preserves (verbose buildRaises : Bool)
    (clangDiags buildMsgs : List DiagnosticMessage) (fs0 : FS)
    (api body c : String) (pyOut mOut : Option (String × String)) (skip : Bool)
    (hpc : fs0.get api = some c)
    (hdiff : compareSame c (body ++ "\n") = false) :
    (mainRun verbose clangDiags buildMsgs buildRaises fs0 (some (api, body)) pyOut mOut
        skip true).exitCode = 1
      ∧ (mainRun verbose clangDiags buildMsgs buildRaises fs0 (some (api, body)) pyOut mOut
          skip true).fs.get api = some c := by
  have hisSome : (fs0.get api).isSome = true := by
    rw [hpc]
    rfl
  have hfs1 : apiPrepared fs0 (some (api, body)) = fs0 := by
    unfold apiPrepared
    dsimp only
    rw [if_pos hisSome]
  simp only [mainRun]
  by_cases hbr : buildRaises = true
  · rw [if_pos hbr]
    refine ⟨rfl, ?_⟩
    dsimp only
    rw [hfs1]
    exact hpc
  · rw [if_neg hbr, hfs1]
    have hcommit := commit_fail_raises fs0 api body skip c hpc hdiff
    by_cases hv : reporterValid .error
        (emitAll (logLevelOf verbose) (emitAll (logLevelOf verbose) initReporter clangDiags)
          buildMsgs) = true
    · simp only [mainTail, genStep, specGenerate]
      rw [if_pos hv, hcommit]
      dsimp only
      refine ⟨rfl, ?_⟩
      rw [FS.get_remove_ne _ _ _ (ne_append_tmp api),
        FS.get_set_ne _ _ _ _ (ne_append_tmp api)]
      exact hpc
    · simp only [mainTail, genStep, specGenerate]
      rw [if_neg hv]
      dsimp only
      exact ⟨rfl, hpc⟩

/-- C7 witness: a concrete `--fail-on-write` run over a one-file file system
whose rendered output differs from the stored content exits 1 and keeps the
old content. -/
theorem fail_on_write_preserves_witness :
    (mainRun false [] [] false { files := [("out.h", "old text")] }
        (some ("out.h", "new text")) none none false true).exitCode = 1
      ∧ (mainRun false [] [] false { files := [("out.h", "old text")] }
          (some ("out.h", "new text")) none none false true).fs.get "out.h"
        = some "old text" :=
  fail_on_write_preserves false false [] [] { files := [("out.h", "old text")] }
    "out.h" "new text" "old text" none none false rfl (by decide)

end OmniBind
